import Mathlib

/-!
Verification of the strava-cli configuration store, token lifecycle and
OAuth flow. The definitions below are a shallow embedding of the Python
sources in src/strava_cli (config.py, client.py, auth.py): optional
values become Option, Python truthiness is modelled explicitly, raised
exceptions become Except, and the external collaborators (the HTTP token
endpoint, the filesystem, os.environ, the TOML parser of the standard
library) are modelled as explicit parameters or small models.
-/

deriving instance DecidableEq for Except

namespace StravaCLI

/-- Python truthiness of an optional string: None and the empty string are falsy. -/
def pyTruthyStr : Option String → Bool
  | none => false
  | some s => !(s == "")

/-- Python truthiness of an optional integer: None and 0 are falsy. -/
def pyTruthyInt : Option Int → Bool
  | none => false
  | some n => !(n == 0)

/-- Credential Record, from the dataclass AuthConfig in config.py. -/
structure AuthConfig where
  access_token : Option String := none
  refresh_token : Option String := none
  expires_at : Option Int := none
  athlete_id : Option Int := none
  scopes : List String := []
deriving Repr, DecidableEq

/-- AuthConfig.is_authenticated: the access token is present. -/
def AuthConfig.is_authenticated (a : AuthConfig) : Bool :=
  a.access_token.isSome

/-- AuthConfig.is_expired: absent expiry counts as expired, otherwise
compares the clock against expires_at (time.time() >= self.expires_at). -/
def AuthConfig.is_expired (a : AuthConfig) (now : Int) : Bool :=
  match a.expires_at with
  | none => true
  | some e => decide (now ≥ e)

/-- Defaults section, from the dataclass DefaultsConfig in config.py. -/
structure DefaultsConfig where
  format : String := "json"
  limit : Int := 30
deriving Repr, DecidableEq

/-- Configuration Document, from the dataclass Config in config.py.
The profiles dict is modelled as an association list in insertion order. -/
structure Config where
  auth : AuthConfig := {}
  defaults : DefaultsConfig := {}
  profiles : List (String × AuthConfig) := []
  client_id : Option String := none
  client_secret : Option String := none
deriving Repr, DecidableEq

/-- Config.get_profile: the named profile when the name is truthy and a
key of the dict, else the default record. -/
def Config.get_profile (c : Config) (name : Option String) : AuthConfig :=
  match name with
  | some n => if pyTruthyStr (some n) && (c.profiles.lookup n).isSome then
      ((c.profiles.lookup n).getD {})
    else c.auth
  | none => c.auth

/-- Replacement of the first binding of a key in an association list,
modelling assignment to an existing dict key. -/
def assocSet {α : Type} (l : List (String × α)) (k : String) (v : α) :
    List (String × α) :=
  match l with
  | [] => []
  | (k₁, v₁) :: rest => if k₁ = k then (k, v) :: rest else (k₁, v₁) :: assocSet rest k v

/-- Write-back companion of get_profile: Python mutates the record
in place through the alias returned by get_profile, which updates the
named dict entry when the name is truthy and present, else the default. -/
def Config.set_profile (c : Config) (name : Option String) (a : AuthConfig) : Config :=
  match name with
  | some n => if pyTruthyStr (some n) && (c.profiles.lookup n).isSome then
      { c with profiles := assocSet c.profiles n a }
    else { c with auth := a }
  | none => { c with auth := a }

/-- Config.clear_auth: a truthy profile name that is a dict key has its
record replaced by a fresh AuthConfig; otherwise the default record is
replaced. -/
def Config.clear_auth (c : Config) (profile : Option String) : Config :=
  if pyTruthyStr profile && (c.profiles.lookup (profile.getD "")).isSome then
    { c with profiles := assocSet c.profiles (profile.getD "") {} }
  else
    { c with auth := {} }

/-- Relevant part of os.environ: the four variables the program reads.
Each field is os.environ.get of the variable. -/
structure Env where
  strava_access_token : Option String := none
  strava_refresh_token : Option String := none
  strava_client_id : Option String := none
  strava_client_secret : Option String := none
deriving Repr, DecidableEq

/-- Config._apply_env_overrides: truthy STRAVA_ACCESS_TOKEN and
STRAVA_REFRESH_TOKEN replace the default record tokens. Client
credentials are not touched here. -/
def Config.apply_env_overrides (c : Config) (env : Env) : Config :=
  let c₁ := if pyTruthyStr env.strava_access_token then
      { c with auth := { c.auth with access_token := env.strava_access_token } }
    else c
  if pyTruthyStr env.strava_refresh_token then
    { c₁ with auth := { c₁.auth with refresh_token := env.strava_refresh_token } }
  else c₁

/-- get_client_credentials in config.py: environment first, config as
the per-value fallback when the environment value is falsy. -/
def get_client_credentials (env : Env) (config : Config) :
    Option String × Option String :=
  let client_id := env.strava_client_id
  let client_secret := env.strava_client_secret
  if !pyTruthyStr client_id || !pyTruthyStr client_secret then
    let client_id := if !pyTruthyStr client_id then config.client_id else client_id
    let client_secret := if !pyTruthyStr client_secret then config.client_secret else client_secret
    (client_id, client_secret)
  else
    (client_id, client_secret)

/-- Error taxonomy of exceptions.py, restricted to the errors raised by
client.py. AuthenticationError carries its message and optional hint;
TokenRefreshError carries the reason string. -/
inductive CliError where
  | authenticationError (message : String) (hint : Option String)
  | tokenRefreshError (reason : String)
  | missingCredentialsError
deriving Repr, DecidableEq

/-- Token triple returned by a successful call of the refresh endpoint. -/
structure TokenTriple where
  access_token : String
  refresh_token : String
  expires_at : Int
deriving Repr, DecidableEq

/-- Environment of StravaClient.refresh_token: the resolved result of
get_client_credentials() and an oracle for the outcome of the upstream
refresh_access_token call (error carries str of the raised exception;
the int conversion of the client id is folded into the oracle since it
is evaluated inside the same try block). -/
structure RefreshEnv where
  client_id : Option String := none
  client_secret : Option String := none
  endpoint : Except String TokenTriple := .error "unreachable"
deriving Repr

/-- State carried by a StravaClient: the loaded config, the selected
profile, and whether config.save() has run (persistence flag). -/
structure ClientState where
  config : Config
  profile : Option String := none
  saved : Bool := false
deriving Repr, DecidableEq

/-- StravaClient.refresh_token: missing client credentials raise
MissingCredentialsError, a falsy refresh token raises TokenRefreshError,
an endpoint failure raises TokenRefreshError with the exception text, and
success overwrites the token triple in place, saves the config and
returns True. -/
def refreshToken (env : RefreshEnv) (st : ClientState) :
    Except CliError (Bool × ClientState) :=
  if !pyTruthyStr env.client_id || !pyTruthyStr env.client_secret then
    .error .missingCredentialsError
  else
    let auth := st.config.get_profile st.profile
    if !pyTruthyStr auth.refresh_token then
      .error (.tokenRefreshError "No refresh token available")
    else
      match env.endpoint with
      | .error e => .error (.tokenRefreshError e)
      | .ok r =>
        let auth₂ := { auth with
          access_token := some r.access_token
          refresh_token := some r.refresh_token
          expires_at := some r.expires_at }
        .ok (true, { st with config := st.config.set_profile st.profile auth₂, saved := true })

/-- StravaClient.ensure_authenticated: raises AuthenticationError when
not authenticated; when expired with a truthy refresh token it calls
refresh_token, raising TokenRefreshError if that returned False
(it never does) and propagating its exceptions; otherwise proceeds. -/
def ensureAuthenticated (env : RefreshEnv) (now : Int) (st : ClientState) :
    Except CliError ClientState :=
  let auth := st.config.get_profile st.profile
  if !auth.is_authenticated then
    .error (.authenticationError "Not authenticated. Run strava auth login first." none)
  else if auth.is_expired now && pyTruthyStr auth.refresh_token then
    match refreshToken env st with
    | .error e => .error e
    | .ok (ok, st₂) =>
      if !ok then .error (.tokenRefreshError "Unable to refresh expired token")
      else .ok st₂
  else
    .ok st

/-- StravaClient.handle_unauthorized: with a truthy refresh token it
attempts one refresh, returning the updated state on success (the caller
retries) and raising AuthenticationError with a re-login hint when the
refresh raised; with no refresh token it raises the same error at once.
The second component counts how many refresh attempts were made. -/
def handleUnauthorized (env : RefreshEnv) (st : ClientState) :
    Except CliError ClientState × Nat :=
  let auth := st.config.get_profile st.profile
  if pyTruthyStr auth.refresh_token then
    match refreshToken env st with
    | .ok (_, st₂) => (.ok st₂, 1)
    | .error _ =>
      (.error (.authenticationError "Unauthorized. Your token may have expired."
        (some "Run strava auth login to re-authenticate.")), 1)
  else
    (.error (.authenticationError "Unauthorized. Your token may have expired."
      (some "Run strava auth login to re-authenticate.")), 0)

/-- Shared state of OAuthCallbackHandler in auth.py: the class attributes
written by do_GET and read by interactive_login. -/
structure CallbackState where
  auth_code : Option String := none
  state : Option String := none
  error : Option String := none
deriving Repr, DecidableEq

/-- OAuthCallbackHandler.do_GET on the parsed query parameters of one
request: an error parameter records the error, else a code parameter
records the code and the state parameter (possibly absent). -/
def handleCallback (params : List (String × String)) (h : CallbackState) : CallbackState :=
  match params.lookup "error" with
  | some e => { h with error := some e }
  | none =>
    match params.lookup "code" with
    | some c => { h with auth_code := some c, state := params.lookup "state" }
    | none => h

/-- Outcome of the validation sequence at the end of interactive_login. -/
inductive LoginOutcome where
  | providerError (e : String)
  | timeout
  | csrfMismatch
  | exchange (code : String)
deriving Repr, DecidableEq

/-- Validation performed by interactive_login after the listener is
joined: a truthy error fails with the provider error, a falsy code fails
as a timeout, a state different from the generated token fails as CSRF,
and only then is the code exchanged. -/
def validateCallback (cb : CallbackState) (expected : String) : LoginOutcome :=
  if pyTruthyStr cb.error then .providerError (cb.error.getD "")
  else if !pyTruthyStr cb.auth_code then .timeout
  else if cb.state ≠ some expected then .csrfMismatch
  else .exchange (cb.auth_code.getD "")

/-! TOML values and tables, shaped as the dictionaries tomllib.load
returns for the files this program writes. -/

/-- Parsed TOML value: strings, integers, arrays of strings and nested
tables cover every value the configuration file format uses. -/
inductive TomlVal where
  | str (s : String)
  | int (n : Int)
  | arr (xs : List String)
  | table (t : List (String × TomlVal))

/-- Parsed TOML table: an association list in insertion order. -/
abbrev Table := List (String × TomlVal)

/-- Characters of a TOML bare key (also the characters of the fixed keys
this program emits). -/
def isBareKeyChar (c : Char) : Bool :=
  c.isAlphanum || c = '_' || c = '-'

/-- Scanner for the remainder of a basic string after the opening quote:
stops at the closing quote, rejects escapes, and accumulates in reverse. -/
def takeStrCore : List Char → List Char → Option (String × List Char)
  | [], _ => none
  | c :: rest, acc =>
    if c = '"' then some (⟨acc.reverse⟩, rest)
    else if c = '\\' then none
    else takeStrCore rest (c :: acc)

/-- Mode of the array scanner. -/
inductive ArrMode where
  | expectQ
  | inStr (acc : List Char)
  | afterS
  | afterComma

/-- Scanner for the remainder of an array of basic strings after the
opening bracket, in the exact item/separator shape the program emits. -/
def arrLoop : ArrMode → List String → List Char → Option (List String)
  | .expectQ, items, c :: rest =>
    if c = '"' then arrLoop (.inStr []) items rest else none
  | .inStr acc, items, c :: rest =>
    if c = '"' then arrLoop .afterS (items ++ [⟨acc.reverse⟩]) rest
    else if c = '\\' then none
    else arrLoop (.inStr (c :: acc)) items rest
  | .afterS, items, c :: rest =>
    if c = ']' then (if rest.isEmpty then some items else none)
    else if c = ',' then arrLoop .afterComma items rest
    else none
  | .afterComma, items, c :: rest =>
    if c = ' ' then arrLoop .expectQ items rest else none
  | _, _, [] => none

/-- Scanner for the remainder of a section header after the opening
bracket: dotted bare-key components terminated by the closing bracket. -/
def hdrLoop : List Char → List Char → List String → Option (List String)
  | [], _, _ => none
  | c :: rest, acc, parts =>
    if c = ']' then
      if rest.isEmpty && !acc.isEmpty then some (parts ++ [⟨acc.reverse⟩]) else none
    else if c = '.' then
      if acc.isEmpty then none else hdrLoop rest [] (parts ++ [⟨acc.reverse⟩])
    else if isBareKeyChar c then hdrLoop rest (c :: acc) parts
    else none

/-- Decimal digits accumulator, most significant first; the fuel bounds
the number of digits so the recursion is structural and computes. -/
def natDigitsAux : Nat → Nat → List Char
  | 0, _ => []
  | fuel + 1, n =>
    if n < 10 then [Nat.digitChar n]
    else natDigitsAux fuel (n / 10) ++ [Nat.digitChar (n % 10)]

/-- Decimal digits of a natural number, most significant first. -/
def natDigits (n : Nat) : List Char := natDigitsAux (n + 1) n

/-- Decimal rendering of an integer, as Python str of an int. -/
def intStr (n : Int) : String :=
  if n < 0 then "-" ++ ⟨natDigits (-n).toNat⟩ else ⟨natDigits n.toNat⟩

/-- Value of one decimal digit character. -/
def charToDigit? (c : Char) : Option Nat :=
  if '0' ≤ c && c ≤ '9' then some (c.toNat - '0'.toNat) else none

/-- Accumulating decimal scanner over a digit sequence. -/
def parseNatAcc : List Char → Nat → Option Nat
  | [], acc => some acc
  | c :: rest, acc =>
    match charToDigit? c with
    | none => none
    | some d => parseNatAcc rest (acc * 10 + d)

/-- Parse of a nonempty digit sequence. -/
def parseNatChars (ds : List Char) : Option Nat :=
  if ds.isEmpty then none else parseNatAcc ds 0

/-- Parse of an optionally negated digit sequence, the TOML integers the
program emits. -/
def parseIntChars : List Char → Option Int
  | [] => none
  | c :: rest =>
    if c = '-' then (parseNatChars rest).map (fun n => -(n : Int))
    else (parseNatChars (c :: rest)).map (fun n => (n : Int))

/-- Parse of a value: a basic string, an array of basic strings, or an
integer. -/
def parseValueChars (v : List Char) : Option TomlVal :=
  match v with
  | [] => (parseIntChars []).map .int
  | c :: rest =>
    if c = '"' then
      match takeStrCore rest [] with
      | some (s, []) => some (.str s)
      | _ => none
    else if c = '[' then (arrLoop .expectQ [] rest).map .arr
    else (parseIntChars (c :: rest)).map .int

/-- Split of a line at its first equals sign. -/
def splitFirstEq : List Char → Option (List Char × List Char)
  | [] => none
  | c :: rest =>
    if c = '=' then some ([], rest)
    else (splitFirstEq rest).map (fun p => (c :: p.1, p.2))

/-- Parse of a key/value line in the exact shape the program emits:
a bare key, one space, the equals sign, one space, the value. -/
def parseKeyValChars (l : List Char) : Option (String × TomlVal) :=
  match splitFirstEq l with
  | none => none
  | some (kpart, vpart) =>
    match kpart.reverse, vpart with
    | c₁ :: krev, c₂ :: vrest =>
      if c₁ = ' ' && c₂ = ' ' then
        let kc := krev.reverse
        if !kc.isEmpty && kc.all isBareKeyChar then
          (parseValueChars vrest).map (fun tv => (⟨kc⟩, tv))
        else none
      else none
    | _, _ => none

/-- Creation of the nested tables a section header declares. -/
def mkTables : Table → List String → Option Table
  | t, [] => some t
  | t, p :: ps =>
    match List.lookup p t with
    | some (.table tt) => (mkTables tt ps).map (fun tt₂ => assocSet t p (.table tt₂))
    | some _ => none
    | none => (mkTables [] ps).map (fun tt₂ => t ++ [(p, .table tt₂)])

/-- Insertion of a key/value pair under a section path; a duplicate key
is a decode error, as in tomllib. -/
def tableInsert : Table → List String → String → TomlVal → Option Table
  | t, [], k, v =>
    match List.lookup k t with
    | some _ => none
    | none => some (t ++ [(k, v)])
  | t, p :: ps, k, v =>
    match List.lookup p t with
    | some (.table tt) => (tableInsert tt ps k v).map (fun tt₂ => assocSet t p (.table tt₂))
    | some _ => none
    | none => (tableInsert [] ps k v).map (fun tt₂ => t ++ [(p, .table tt₂)])

/-- One line of the decoder: blank lines are skipped, a bracket opens a
section header, anything else must be a key/value line of the current
section. -/
def pstep (st : Option (List String) × Table) (line : String) :
    Option (Option (List String) × Table) :=
  match line.data with
  | [] => some st
  | c :: rest =>
    if c = '[' then
      match hdrLoop rest [] [] with
      | none => none
      | some path => (mkTables st.2 path).map (fun d => (some path, d))
    else
      match parseKeyValChars (c :: rest) with
      | none => none
      | some (k, v) => (tableInsert st.2 (st.1.getD []) k v).map (fun d => (st.1, d))

/-- Model of tomllib.load on the lines of the file: fold of the line
decoder, none meaning a TOMLDecodeError was raised. -/
def parseToml (lines : List String) : Option Table :=
  (lines.foldlM pstep ((none : Option (List String)), ([] : Table))).map (fun st => st.2)

/-- Lookup of a section as a table, the empty table when absent (a
missing section behaves as a falsy dict in the walrus tests of
Config._load_from_file). -/
def getTableD (t : Table) (k : String) : Table :=
  match List.lookup k t with
  | some (.table tt) => tt
  | _ => []

/-- Reading of an optional string value, as dict.get in the loader. -/
def asStr : Option TomlVal → Option String
  | some (.str s) => some s
  | _ => none

/-- Reading of an optional integer value, as dict.get in the loader. -/
def asInt : Option TomlVal → Option Int
  | some (.int n) => some n
  | _ => none

/-- Reading of an array value with the empty default, as
dict.get of scopes in the loader. -/
def asArrD : Option TomlVal → List String
  | some (.arr l) => l
  | _ => []

/-- Table content of a value, used for the per-profile dictionaries. -/
def tableOf : TomlVal → Table
  | .table t => t
  | _ => []

/-- Construction of an AuthConfig from a parsed section, as the
AuthConfig(...) calls of Config._load_from_file. -/
def authFromTable (t : Table) : AuthConfig :=
  { access_token := asStr (List.lookup "access_token" t)
    refresh_token := asStr (List.lookup "refresh_token" t)
    expires_at := asInt (List.lookup "expires_at" t)
    athlete_id := asInt (List.lookup "athlete_id" t)
    scopes := asArrD (List.lookup "scopes" t) }

/-- Config._load_from_file on the parsed data: each section is read only
when its dictionary is truthy (nonempty). -/
def loadFromData (data : Table) : Config :=
  let clientT := getTableD data "client"
  let authT := getTableD data "auth"
  let defaultsT := getTableD data "defaults"
  let profilesT := getTableD data "profiles"
  { client_id := if clientT.isEmpty then none else asStr (List.lookup "id" clientT)
    client_secret := if clientT.isEmpty then none else asStr (List.lookup "secret" clientT)
    auth := if authT.isEmpty then {} else authFromTable authT
    defaults := if defaultsT.isEmpty then {} else
      { format := (asStr (List.lookup "format" defaultsT)).getD "json"
        limit := (asInt (List.lookup "limit" defaultsT)).getD 30 }
    profiles := profilesT.map (fun p => (p.1, authFromTable (tableOf p.2))) }

/-- Failure mode of Config.load: the TOMLDecodeError of tomllib, which
is a ValueError and not a StravaCLIError of exceptions.py. -/
inductive LoadError where
  | tomlDecodeError
deriving Repr, DecidableEq

/-- Config.load: a missing file yields the default document, an existing
file is decoded (a decode failure propagating as TOMLDecodeError), and
the environment overrides are applied afterwards. -/
def loadConfig (env : Env) (file : Option (List String)) : Except LoadError Config :=
  match file with
  | none => .ok (Config.apply_env_overrides {} env)
  | some lines =>
    match parseToml lines with
    | none => .error .tomlDecodeError
    | some data => .ok (Config.apply_env_overrides (loadFromData data) env)

/-! Serialization, from Config.save in config.py. -/

/-- Quoting of a string value exactly as the f-strings of Config.save. -/
def quoteVal (s : String) : String := "\"" ++ s ++ "\""

/-- Client credentials section lines of Config.save. -/
def clientLines (c : Config) : List String :=
  if pyTruthyStr c.client_id || pyTruthyStr c.client_secret then
    ["[client]"]
    ++ (if pyTruthyStr c.client_id then ["id = " ++ quoteVal (c.client_id.getD "")] else [])
    ++ (if pyTruthyStr c.client_secret then
        ["secret = " ++ quoteVal (c.client_secret.getD "")] else [])
    ++ [""]
  else []

/-- Auth section lines of Config.save: each truthy field is written. -/
def authSectionLines (a : AuthConfig) : List String :=
  ["[auth]"]
  ++ (if pyTruthyStr a.access_token then
      ["access_token = " ++ quoteVal (a.access_token.getD "")] else [])
  ++ (if pyTruthyStr a.refresh_token then
      ["refresh_token = " ++ quoteVal (a.refresh_token.getD "")] else [])
  ++ (if pyTruthyInt a.expires_at then
      ["expires_at = " ++ intStr (a.expires_at.getD 0)] else [])
  ++ (if pyTruthyInt a.athlete_id then
      ["athlete_id = " ++ intStr (a.athlete_id.getD 0)] else [])
  ++ (if !a.scopes.isEmpty then
      ["scopes = [" ++ String.intercalate ", " (a.scopes.map quoteVal) ++ "]"] else [])
  ++ [""]

/-- Defaults section lines of Config.save, written unconditionally. -/
def defaultsSectionLines (d : DefaultsConfig) : List String :=
  ["[defaults]", "format = " ++ quoteVal d.format, "limit = " ++ intStr d.limit, ""]

/-- Profile section lines of Config.save: the four truthy token fields;
scopes are not written for profiles. -/
def profileSectionLines (name : String) (p : AuthConfig) : List String :=
  ["[profiles." ++ name ++ "]"]
  ++ (if pyTruthyStr p.access_token then
      ["access_token = " ++ quoteVal (p.access_token.getD "")] else [])
  ++ (if pyTruthyStr p.refresh_token then
      ["refresh_token = " ++ quoteVal (p.refresh_token.getD "")] else [])
  ++ (if pyTruthyInt p.expires_at then
      ["expires_at = " ++ intStr (p.expires_at.getD 0)] else [])
  ++ (if pyTruthyInt p.athlete_id then
      ["athlete_id = " ++ intStr (p.athlete_id.getD 0)] else [])
  ++ [""]

/-- Lines of the file Config.save writes. -/
def Config.saveLines (c : Config) : List String :=
  clientLines c ++ authSectionLines c.auth ++ defaultsSectionLines c.defaults
  ++ (c.profiles.map (fun p => profileSectionLines p.1 p.2)).flatten

/-- State of the configuration file and its directory: modes, and the
file content as lines. -/
structure FileSystem where
  dirMode : Option Nat := none
  fileMode : Option Nat := none
  fileLines : Option (List String) := none
deriving Repr, DecidableEq

/-- Config.save on the filesystem: mkdir with exist_ok (creation mode a
parameter of the environment), chmod of the directory to owner-rwx,
write_text of the lines (creation mode of a fresh file a parameter),
then chmod of the file to owner read/write. -/
def Config.save (c : Config) (fs : FileSystem) (mkdirMode createMode : Nat) : FileSystem :=
  let fs₁ := if fs.dirMode.isSome then fs else { fs with dirMode := some mkdirMode }
  let fs₂ := { fs₁ with dirMode := some 0o700 }
  let fs₃ := { fs₂ with fileLines := some c.saveLines
                        fileMode := if fs₂.fileMode.isSome then fs₂.fileMode else some createMode }
  { fs₃ with fileMode := some 0o600 }

/-! Normalization and serializability, for the round-trip statement. -/

/-- Falsy optional strings collapse to absent, as an unwritten field. -/
def normStr (s : Option String) : Option String :=
  if pyTruthyStr s then s else none

/-- Falsy optional integers collapse to absent, as an unwritten field. -/
def normInt (n : Option Int) : Option Int :=
  if pyTruthyInt n then n else none

/-- Normalization of a credential record under save followed by load. -/
def normAuth (a : AuthConfig) : AuthConfig :=
  { access_token := normStr a.access_token
    refresh_token := normStr a.refresh_token
    expires_at := normInt a.expires_at
    athlete_id := normInt a.athlete_id
    scopes := a.scopes }

/-- Normalization of a document under save followed by load: falsy
fields collapse to absent and profile scopes are dropped (Config.save
does not write them). -/
def normalizeConfig (c : Config) : Config :=
  { client_id := normStr c.client_id
    client_secret := normStr c.client_secret
    auth := normAuth c.auth
    defaults := c.defaults
    profiles := c.profiles.map (fun p => (p.1, { normAuth p.2 with scopes := [] })) }

/-- Characters that survive the unescaped basic-string serialization of
Config.save: printable, not a quote, not a backslash. -/
def cleanChar (c : Char) : Bool :=
  32 ≤ c.toNat && c.toNat ≠ 127 && c ≠ '"' && c ≠ '\\'

/-- Strings that survive the unescaped serialization. -/
def cleanStr (s : String) : Bool := s.data.all cleanChar

/-- Optional strings that survive the unescaped serialization. -/
def optClean : Option String → Bool
  | none => true
  | some s => cleanStr s

/-- Strings usable as a bare profile-name key in a section header. -/
def bareKey (s : String) : Bool :=
  !s.data.isEmpty && s.data.all isBareKeyChar

/-- Serializability of a credential record: its string fields survive
the unescaped serialization. -/
def cleanAuth (a : AuthConfig) : Bool :=
  optClean a.access_token && optClean a.refresh_token && a.scopes.all cleanStr

/-- Serializability of a document: string values survive the unescaped
serialization, profile names are distinct bare keys. -/
def serializableB (c : Config) : Bool :=
  optClean c.client_id && optClean c.client_secret
  && cleanAuth c.auth && cleanStr c.defaults.format
  && c.profiles.all (fun p => bareKey p.1
      && optClean p.2.access_token && optClean p.2.refresh_token)
  && decide (c.profiles.map Prod.fst).Nodup

/-! Expected parse results of the serialized sections, used to state the
round-trip theorem. -/

/-- Table the client section parses to. -/
def clientTable (c : Config) : Table :=
  (if pyTruthyStr c.client_id then [("id", TomlVal.str (c.client_id.getD ""))] else [])
  ++ (if pyTruthyStr c.client_secret then
      [("secret", TomlVal.str (c.client_secret.getD ""))] else [])

/-- Table the auth section parses to. -/
def authTable (a : AuthConfig) : Table :=
  (if pyTruthyStr a.access_token then
    [("access_token", TomlVal.str (a.access_token.getD ""))] else [])
  ++ (if pyTruthyStr a.refresh_token then
      [("refresh_token", TomlVal.str (a.refresh_token.getD ""))] else [])
  ++ (if pyTruthyInt a.expires_at then
      [("expires_at", TomlVal.int (a.expires_at.getD 0))] else [])
  ++ (if pyTruthyInt a.athlete_id then
      [("athlete_id", TomlVal.int (a.athlete_id.getD 0))] else [])
  ++ (if !a.scopes.isEmpty then [("scopes", TomlVal.arr a.scopes)] else [])

/-- Table the defaults section parses to. -/
def defaultsTable (d : DefaultsConfig) : Table :=
  [("format", TomlVal.str d.format), ("limit", TomlVal.int d.limit)]

/-- Table a profile section parses to: no scopes entry is ever written. -/
def profileTable (p : AuthConfig) : Table :=
  (if pyTruthyStr p.access_token then
    [("access_token", TomlVal.str (p.access_token.getD ""))] else [])
  ++ (if pyTruthyStr p.refresh_token then
      [("refresh_token", TomlVal.str (p.refresh_token.getD ""))] else [])
  ++ (if pyTruthyInt p.expires_at then
      [("expires_at", TomlVal.int (p.expires_at.getD 0))] else [])
  ++ (if pyTruthyInt p.athlete_id then
      [("athlete_id", TomlVal.int (p.athlete_id.getD 0))] else [])

/-- Tables of all profile sections. -/
def profilesTables (ps : List (String × AuthConfig)) : Table :=
  ps.map (fun p => (p.1, TomlVal.table (profileTable p.2)))

/-- Optional client entry of the parsed document. -/
def clientEntry (c : Config) : Table :=
  if pyTruthyStr c.client_id || pyTruthyStr c.client_secret then
    [("client", TomlVal.table (clientTable c))]
  else []

/-- Optional profiles entry of the parsed document. -/
def profilesEntry (ps : List (String × AuthConfig)) : Table :=
  if ps.isEmpty then [] else [("profiles", TomlVal.table (profilesTables ps))]

/-- Document the serialized lines parse to. -/
def expectedDoc (c : Config) : Table :=
  clientEntry c
  ++ [("auth", TomlVal.table (authTable c.auth)),
      ("defaults", TomlVal.table (defaultsTable c.defaults))]
  ++ profilesEntry c.profiles

/-- Key/value line as Config.save emits it for each value shape. -/
def kvLineOf (k : String) (v : TomlVal) : String :=
  match v with
  | .str t => k ++ " = " ++ quoteVal t
  | .int n => k ++ " = " ++ intStr n
  | .arr xs => k ++ " = [" ++ String.intercalate ", " (xs.map quoteVal) ++ "]"
  | .table _ => ""

/-- Values that the serializer emits and the decoder recovers: clean
strings, any integer, nonempty arrays of clean strings. -/
def wfVal : TomlVal → Bool
  | .str t => cleanStr t
  | .int _ => true
  | .arr xs => !xs.isEmpty && xs.all cleanStr
  | .table _ => false

/-- Run of the line decoder over a list of lines. -/
def runLines (lines : List String) (st : Option (List String) × Table) :
    Option (Option (List String) × Table) :=
  lines.foldlM pstep st

/-! Basic facts about truthiness, association lists and profile access. -/

theorem truthy_getD_str (o : Option String) (h : pyTruthyStr o = true) :
    o = some (o.getD "") := by
  cases o with
  | none => simp [pyTruthyStr] at h
  | some s => rfl

theorem truthy_getD_int (o : Option Int) (h : pyTruthyInt o = true) :
    o = some (o.getD 0) := by
  cases o with
  | none => simp [pyTruthyInt] at h
  | some n => rfl

theorem lookup_assocSet_self {α : Type} (l : List (String × α)) (k : String) (v : α) :
    List.lookup k (assocSet l k v) = (List.lookup k l).map (fun _ => v) := by
  induction l with
  | nil => simp [assocSet]
  | cons p rest ih =>
    obtain ⟨k₁, v₁⟩ := p
    by_cases h : k₁ = k
    · subst h
      simp [assocSet, List.lookup]
    · have hb : (k == k₁) = false := by simp [Ne.symm h]
      simp [assocSet, h, List.lookup, hb, ih]

theorem lookup_assocSet_other {α : Type} (l : List (String × α)) (k m : String) (v : α)
    (h : m ≠ k) : List.lookup m (assocSet l k v) = List.lookup m l := by
  induction l with
  | nil => simp [assocSet]
  | cons p rest ih =>
    obtain ⟨k₁, v₁⟩ := p
    by_cases hk : k₁ = k
    · subst hk
      have hb : (m == k₁) = false := by simp [h]
      simp [assocSet, List.lookup, hb]
    · simp [assocSet, hk, List.lookup, ih]

theorem map_fst_assocSet {α : Type} (l : List (String × α)) (k : String) (v : α) :
    (assocSet l k v).map Prod.fst = l.map Prod.fst := by
  induction l with
  | nil => simp [assocSet]
  | cons p rest ih =>
    obtain ⟨k₁, v₁⟩ := p
    by_cases h : k₁ = k
    · subst h
      simp [assocSet]
    · simp [assocSet, h, ih]

theorem get_set_profile (c : Config) (p : Option String) (a : AuthConfig) :
    (c.set_profile p a).get_profile p = a := by
  cases p with
  | none => rfl
  | some n =>
    by_cases h : (pyTruthyStr (some n) && (List.lookup n c.profiles).isSome) = true
    · rw [Bool.and_eq_true] at h
      obtain ⟨ht, hk⟩ := h
      rcases Option.isSome_iff_exists.mp hk with ⟨w, hw⟩
      have h₂ : List.lookup n (assocSet c.profiles n a) = some a := by
        rw [lookup_assocSet_self, hw]
        rfl
      simp [Config.set_profile, Config.get_profile, ht, hk, h₂, hw]
    · rw [Bool.not_eq_true] at h
      simp [Config.set_profile, Config.get_profile, h]

/-! Facts about the line decoder, leading to the round-trip theorem. -/

theorem runLines_nil (st : Option (List String) × Table) : runLines [] st = some st := rfl

theorem runLines_cons (l : String) (rest : List String) (st : Option (List String) × Table) :
    runLines (l :: rest) st = (pstep st l).bind (runLines rest) := by
  cases h : pstep st l <;> simp [runLines, List.foldlM_cons, h, Option.bind]

theorem runLines_append (l₁ l₂ : List String) (st : Option (List String) × Table) :
    runLines (l₁ ++ l₂) st = (runLines l₁ st).bind (runLines l₂) := by
  induction l₁ generalizing st with
  | nil => simp [runLines_nil]
  | cons a t ih =>
    rw [List.cons_append, runLines_cons, runLines_cons]
    cases h : pstep st a with
    | none => rfl
    | some st₂ => simp [ih]

theorem lookup_append_of_none {α : Type} (l₁ l₂ : List (String × α)) (k : String)
    (h : List.lookup k l₁ = none) : List.lookup k (l₁ ++ l₂) = List.lookup k l₂ := by
  induction l₁ with
  | nil => simp
  | cons p t ih =>
    obtain ⟨k₁, v₁⟩ := p
    by_cases hk : (k == k₁) = true
    · simp only [List.lookup, hk] at h
      simp at h
    · rw [Bool.not_eq_true] at hk
      simp only [List.cons_append, List.lookup, hk] at h ⊢
      exact ih h

theorem lookup_append_self {α : Type} (l₁ l₂ : List (String × α)) (k : String) (v : α)
    (h : List.lookup k l₁ = none) :
    List.lookup k (l₁ ++ (k, v) :: l₂) = some v := by
  rw [lookup_append_of_none l₁ _ k h]
  simp [List.lookup]

theorem lookup_cons_ne {α : Type} (l : List (String × α)) (k m : String) (v : α)
    (h : (k == m) = false) : List.lookup k ((m, v) :: l) = List.lookup k l := by
  simp [List.lookup, h]

theorem assocSet_append_of_none {α : Type} (l₁ l₂ : List (String × α)) (k : String) (x y : α)
    (h : List.lookup k l₁ = none) :
    assocSet (l₁ ++ (k, x) :: l₂) k y = l₁ ++ (k, y) :: l₂ := by
  induction l₁ with
  | nil => simp [assocSet]
  | cons p t ih =>
    obtain ⟨k₁, v₁⟩ := p
    by_cases hk : (k == k₁) = true
    · simp only [List.lookup, hk] at h
      simp at h
    · rw [Bool.not_eq_true] at hk
      have hne : k₁ ≠ k := by
        intro hh
        subst hh
        simp at hk
      simp only [List.lookup, hk] at h
      simp only [List.cons_append, assocSet, hne, if_false, List.append_eq]
      rw [ih h]

theorem bareKeyChar_ne (c : Char) (h : isBareKeyChar c = true) :
    c ≠ '=' ∧ c ≠ '[' ∧ c ≠ ']' ∧ c ≠ '.' ∧ c ≠ ' ' ∧ c ≠ '"' := by
  refine ⟨?_, ?_, ?_, ?_, ?_, ?_⟩ <;> rintro rfl <;> exact absurd h (by decide)

theorem cleanChar_ne (c : Char) (h : cleanChar c = true) : c ≠ '"' ∧ c ≠ '\\' := by
  constructor <;> rintro rfl <;> exact absurd h (by decide)

theorem splitFirstEq_emit (l r : List Char) (h : ∀ c ∈ l, c ≠ '=') :
    splitFirstEq (l ++ '=' :: r) = some (l, r) := by
  induction l with
  | nil => simp [splitFirstEq]
  | cons c t ih =>
    have hc : c ≠ '=' := h c (List.mem_cons_self c t)
    simp only [List.cons_append, splitFirstEq, hc, if_false, List.append_eq]
    rw [ih (fun d hd => h d (List.mem_cons_of_mem c hd))]
    rfl

theorem takeStrCore_clean (l rest acc : List Char) (h : ∀ c ∈ l, cleanChar c = true) :
    takeStrCore (l ++ '"' :: rest) acc = some (⟨acc.reverse ++ l⟩, rest) := by
  induction l generalizing acc with
  | nil => simp [takeStrCore]
  | cons c t ih =>
    obtain ⟨h₁, h₂⟩ := cleanChar_ne c (h c (List.mem_cons_self c t))
    simp only [List.cons_append, takeStrCore, h₁, h₂, if_false, List.append_eq]
    rw [ih (c :: acc) (fun d hd => h d (List.mem_cons_of_mem c hd))]
    simp

theorem charToDigit_digitChar (d : Nat) (h : d < 10) :
    charToDigit? (Nat.digitChar d) = some d := by
  interval_cases d <;> decide

theorem digitChar_ne_dash (d : Nat) (h : d < 10) : Nat.digitChar d ≠ '-' := by
  interval_cases d <;> decide

theorem parseNatAcc_append (l₁ l₂ : List Char) (acc : Nat) :
    parseNatAcc (l₁ ++ l₂) acc =
      match parseNatAcc l₁ acc with
      | none => none
      | some a => parseNatAcc l₂ a := by
  induction l₁ generalizing acc with
  | nil => rfl
  | cons c t ih =>
    cases h : charToDigit? c with
    | none => simp [parseNatAcc, h]
    | some d => simp [parseNatAcc, h, ih]

theorem natDigitsAux_ne_nil : ∀ (fuel n : Nat), n < fuel → natDigitsAux fuel n ≠ [] := by
  intro fuel
  cases fuel with
  | zero =>
    intro n hn
    omega
  | succ f =>
    intro n hn
    simp only [natDigitsAux]
    split <;> simp

theorem natDigits_ne_nil (n : Nat) : natDigits n ≠ [] :=
  natDigitsAux_ne_nil (n + 1) n (Nat.lt_succ_self n)

theorem natDigitsAux_head_digit :
    ∀ (fuel n : Nat), n < fuel →
      ∃ d ds, natDigitsAux fuel n = Nat.digitChar d :: ds ∧ d < 10 := by
  intro fuel
  induction fuel with
  | zero =>
    intro n hn
    omega
  | succ f ih =>
    intro n hn
    simp only [natDigitsAux]
    split
    · next h => exact ⟨n, [], rfl, h⟩
    · next h =>
      obtain ⟨d, ds, hd, hlt⟩ := ih (n / 10) (by omega)
      refine ⟨d, ds ++ [Nat.digitChar (n % 10)], ?_, hlt⟩
      rw [hd]
      rfl

theorem natDigits_head_digit (n : Nat) :
    ∃ d ds, natDigits n = Nat.digitChar d :: ds ∧ d < 10 :=
  natDigitsAux_head_digit (n + 1) n (Nat.lt_succ_self n)

theorem parseNatAcc_natDigitsAux :
    ∀ (fuel n : Nat), n < fuel → ∀ acc,
      parseNatAcc (natDigitsAux fuel n) acc
        = some (acc * 10 ^ (natDigitsAux fuel n).length + n) := by
  intro fuel
  induction fuel with
  | zero =>
    intro n hn
    omega
  | succ f ih =>
    intro n hn acc
    simp only [natDigitsAux]
    split
    · next h =>
      simp [parseNatAcc, charToDigit_digitChar n h]
    · next h =>
      have hm : n % 10 < 10 := Nat.mod_lt n (by omega)
      rw [parseNatAcc_append, ih (n / 10) (by omega) acc]
      simp only [parseNatAcc, charToDigit_digitChar (n % 10) hm, List.length_append,
        List.length_cons, List.length_nil, Nat.zero_add]
      rw [pow_succ, ← Nat.mul_assoc]
      congr 1
      omega

theorem parseNatAcc_natDigits (n : Nat) :
    ∀ acc, parseNatAcc (natDigits n) acc = some (acc * 10 ^ (natDigits n).length + n) :=
  fun acc => parseNatAcc_natDigitsAux (n + 1) n (Nat.lt_succ_self n) acc

theorem parseNatChars_natDigits (n : Nat) : parseNatChars (natDigits n) = some n := by
  have h := parseNatAcc_natDigits n 0
  simp only [Nat.zero_mul, Nat.zero_add] at h
  have hne : (natDigits n).isEmpty = false := by
    cases hd : natDigits n with
    | nil => exact absurd hd (natDigits_ne_nil n)
    | cons c t => rfl
  simp [parseNatChars, hne, h]

theorem parseIntChars_intStr (n : Int) : parseIntChars (intStr n).data = some n := by
  by_cases h : n < 0
  · rw [intStr, if_pos h]
    have hd : (("-" ++ (⟨natDigits (-n).toNat⟩ : String)) : String).data =
        '-' :: natDigits (-n).toNat := by
      rw [String.data_append]
      rfl
    rw [hd]
    have ht : (((-n).toNat : Nat) : Int) = -n := Int.toNat_of_nonneg (by omega)
    simp [parseIntChars, parseNatChars_natDigits, ht]
  · rw [intStr, if_neg h]
    obtain ⟨d, ds, hd, hlt⟩ := natDigits_head_digit n.toNat
    have hdata : ((⟨natDigits n.toNat⟩ : String)).data = natDigits n.toNat := rfl
    rw [hdata, hd]
    simp only [parseIntChars]
    rw [if_neg (digitChar_ne_dash d hlt), ← hd, parseNatChars_natDigits]
    have ht : ((n.toNat : Nat) : Int) = n := Int.toNat_of_nonneg (by omega)
    simp [ht]

theorem intercalate_go_append (x y s : String) (l : List String) :
    String.intercalate.go (x ++ y) s l = x ++ String.intercalate.go y s l := by
  induction l generalizing y with
  | nil => rfl
  | cons b t ih =>
    show String.intercalate.go ((x ++ y) ++ s ++ b) s t =
      x ++ String.intercalate.go (y ++ s ++ b) s t
    rw [String.append_assoc x y s, String.append_assoc x (y ++ s) b]
    exact ih ((y ++ s) ++ b)

theorem intercalate_cons₂ (s a b : String) (l : List String) :
    String.intercalate s (a :: b :: l) = a ++ s ++ String.intercalate s (b :: l) := by
  show String.intercalate.go ((a ++ s) ++ b) s l = (a ++ s) ++ String.intercalate.go b s l
  exact intercalate_go_append (a ++ s) b s l

theorem hdrLoop_tail (l : List Char) (acc : List Char) (parts : List String)
    (hl : ∀ c ∈ l, isBareKeyChar c = true) (hne : acc ≠ [] ∨ l ≠ []) :
    hdrLoop (l ++ [']']) acc parts = some (parts ++ [⟨acc.reverse ++ l⟩]) := by
  induction l generalizing acc with
  | nil =>
    rcases hne with ha | hl₂
    · have : acc.isEmpty = false := by
        cases acc with
        | nil => exact absurd rfl ha
        | cons c t => rfl
      simp [hdrLoop, this]
    · exact absurd rfl hl₂
  | cons c t ih =>
    have hc := hl c (List.mem_cons_self c t)
    obtain ⟨-, -, hb₁, hb₂, -, -⟩ := bareKeyChar_ne c hc
    simp only [List.cons_append, hdrLoop, hb₁, hb₂, hc, if_false, if_true, List.append_eq]
    rw [ih (c :: acc) (fun d hd => hl d (List.mem_cons_of_mem c hd)) (Or.inl (by simp))]
    simp

theorem arrLoop_inStr (x acc : List Char) (items : List String) (rest : List Char)
    (hx : ∀ c ∈ x, cleanChar c = true) :
    arrLoop (.inStr acc) items (x ++ '"' :: rest) =
      arrLoop .afterS (items ++ [⟨acc.reverse ++ x⟩]) rest := by
  induction x generalizing acc with
  | nil => simp [arrLoop]
  | cons c t ih =>
    obtain ⟨h₁, h₂⟩ := cleanChar_ne c (hx c (List.mem_cons_self c t))
    simp only [List.cons_append, arrLoop, h₁, h₂, if_false, List.append_eq]
    rw [ih (c :: acc) (fun d hd => hx d (List.mem_cons_of_mem c hd))]
    simp

theorem arrLoop_items :
    ∀ (xs items : List String), (∀ s ∈ xs, cleanStr s = true) → xs ≠ [] →
      arrLoop .expectQ items ((String.intercalate ", " (xs.map quoteVal)).data ++ [']'])
        = some (items ++ xs) := by
  intro xs
  induction xs with
  | nil =>
    intro items hxs hne
    exact absurd rfl hne
  | cons x t ih =>
    intro items hxs hne
    have hx : ∀ c ∈ x.data, cleanChar c = true := by
      intro c hc
      have hh := hxs x (List.mem_cons_self x t)
      simp only [cleanStr, List.all_eq_true] at hh
      exact hh c hc
    have hmkx : (⟨List.reverse [] ++ x.data⟩ : String) = x := rfl
    cases t with
    | nil =>
      have hq : (String.intercalate ", " ([x].map quoteVal)).data ++ [']'] =
          '"' :: (x.data ++ '"' :: [']']) := by
        show (quoteVal x).data ++ [']'] = _
        simp [quoteVal, String.data_append]
      rw [hq]
      simp only [arrLoop, if_pos rfl]
      rw [arrLoop_inStr x.data [] items (']' :: []) hx, hmkx]
      simp [arrLoop]
    | cons y t₂ =>
      have hq : (String.intercalate ", " ((x :: y :: t₂).map quoteVal)).data ++ [']'] =
          '"' :: (x.data ++ '"' :: (',' :: ' ' ::
            ((String.intercalate ", " ((y :: t₂).map quoteVal)).data ++ [']']))) := by
        show (String.intercalate ", " (quoteVal x :: quoteVal y :: t₂.map quoteVal)).data
            ++ [']'] = _
        rw [intercalate_cons₂]
        simp [quoteVal, String.data_append, List.append_assoc]
      rw [hq]
      simp only [arrLoop, if_pos rfl]
      rw [arrLoop_inStr x.data [] items _ hx, hmkx]
      have hstep : arrLoop .afterS (items ++ [x])
          (',' :: ' ' :: ((String.intercalate ", " ((y :: t₂).map quoteVal)).data ++ [']'])) =
        arrLoop .expectQ (items ++ [x])
          ((String.intercalate ", " ((y :: t₂).map quoteVal)).data ++ [']']) := by
        simp [arrLoop]
      rw [hstep]
      rw [ih (items ++ [x]) (fun s hs => hxs s (List.mem_cons_of_mem x hs)) (by simp)]
      simp

theorem pstep_blank (st : Option (List String) × Table) : pstep st "" = some st := rfl

theorem parseValue_str (t : String) (h : cleanStr t = true) :
    parseValueChars ('"' :: (t.data ++ ['"'])) = some (.str t) := by
  have hc : ∀ c ∈ t.data, cleanChar c = true := by
    rw [cleanStr, List.all_eq_true] at h
    exact h
  simp only [parseValueChars, if_pos rfl]
  rw [takeStrCore_clean t.data [] [] hc]
  rfl

theorem digitChar_ne_marks (d : Nat) (h : d < 10) :
    Nat.digitChar d ≠ '"' ∧ Nat.digitChar d ≠ '[' := by
  constructor <;> (interval_cases d <;> decide)

theorem intStr_head (n : Int) :
    ∃ c rest, (intStr n).data = c :: rest ∧ c ≠ '"' ∧ c ≠ '[' := by
  by_cases h : n < 0
  · refine ⟨'-', natDigits (-n).toNat, ?_, by decide, by decide⟩
    rw [intStr, if_pos h, String.data_append]
    rfl
  · obtain ⟨d, ds, hd, hlt⟩ := natDigits_head_digit n.toNat
    obtain ⟨h₁, h₂⟩ := digitChar_ne_marks d hlt
    refine ⟨Nat.digitChar d, ds, ?_, h₁, h₂⟩
    rw [intStr, if_neg h]
    exact hd

theorem parseValue_int (n : Int) : parseValueChars (intStr n).data = some (.int n) := by
  obtain ⟨c, rest, hdata, h₁, h₂⟩ := intStr_head n
  rw [hdata]
  simp only [parseValueChars, if_neg h₁, if_neg h₂]
  rw [← hdata, parseIntChars_intStr]
  rfl

theorem parseValue_arr (xs : List String) (hne : xs ≠ [])
    (hclean : ∀ s ∈ xs, cleanStr s = true) :
    parseValueChars ('[' :: ((String.intercalate ", " (xs.map quoteVal)).data ++ [']']))
      = some (.arr xs) := by
  have h₁ : ('[' : Char) ≠ '"' := by decide
  simp only [parseValueChars, if_neg h₁, if_pos rfl]
  rw [arrLoop_items xs [] hclean hne]
  rfl

theorem parseKeyVal_emit (k : String) (vchars : List Char) (tv : TomlVal)
    (hk : bareKey k = true) (hv : parseValueChars vchars = some tv) :
    parseKeyValChars (k.data ++ (' ' :: '=' :: ' ' :: vchars)) = some (k, tv) := by
  rw [bareKey, Bool.and_eq_true] at hk
  obtain ⟨hne, hall⟩ := hk
  have hallc : ∀ c ∈ k.data, isBareKeyChar c = true := by
    rw [List.all_eq_true] at hall
    exact hall
  have hsplit : splitFirstEq (k.data ++ (' ' :: '=' :: ' ' :: vchars))
      = some (k.data ++ [' '], ' ' :: vchars) := by
    have hsh : k.data ++ (' ' :: '=' :: ' ' :: vchars)
        = (k.data ++ [' ']) ++ ('=' :: ' ' :: vchars) := by
      simp
    rw [hsh]
    apply splitFirstEq_emit
    intro c hc
    rcases List.mem_append.mp hc with h₁ | h₂
    · exact (bareKeyChar_ne c (hallc c h₁)).1
    · simp only [List.mem_singleton] at h₂
      subst h₂
      decide
  have hrev : (k.data ++ [' ']).reverse = ' ' :: k.data.reverse := by
    simp
  simp only [parseKeyValChars]
  rw [hsplit]
  simp only [hrev, List.reverse_reverse]
  rw [if_pos (by simp)]
  rw [if_pos (by simp [hne, hall])]
  rw [hv]
  rfl

theorem pstep_kv (line : String) (k : String) (vchars : List Char) (tv : TomlVal)
    (path : List String) (doc : Table)
    (hdata : line.data = k.data ++ (' ' :: '=' :: ' ' :: vchars))
    (hk : bareKey k = true) (hv : parseValueChars vchars = some tv) :
    pstep (some path, doc) line = (tableInsert doc path k tv).map (fun d => (some path, d)) := by
  have hk₂ := hk
  rw [bareKey, Bool.and_eq_true] at hk₂
  obtain ⟨hne, hall⟩ := hk₂
  have hallc : ∀ c ∈ k.data, isBareKeyChar c = true := by
    rw [List.all_eq_true] at hall
    exact hall
  cases hkd : k.data with
  | nil =>
    rw [hkd] at hne
    simp at hne
  | cons kc kt =>
    have hkc : isBareKeyChar kc = true := hallc kc (by rw [hkd]; exact List.mem_cons_self kc kt)
    have hkc₁ : kc ≠ '[' := (bareKeyChar_ne kc hkc).2.1
    unfold pstep
    rw [hdata, hkd]
    simp only [List.cons_append]
    rw [if_neg hkc₁]
    have hform : kc :: (kt ++ (' ' :: '=' :: ' ' :: vchars))
        = k.data ++ (' ' :: '=' :: ' ' :: vchars) := by
      rw [hkd]
      rfl
    rw [hform, parseKeyVal_emit k vchars tv hk hv]
    rfl

theorem pstep_kvLineOf (k : String) (v : TomlVal) (path : List String) (doc : Table)
    (hk : bareKey k = true) (hv : wfVal v = true) :
    pstep (some path, doc) (kvLineOf k v)
      = (tableInsert doc path k v).map (fun d => (some path, d)) := by
  have d₁ : (" = " : String).data = [' ', '=', ' '] := rfl
  have d₂ : ("\"" : String).data = ['"'] := rfl
  have d₃ : (" = [" : String).data = [' ', '=', ' ', '['] := rfl
  have d₄ : ("]" : String).data = [']'] := rfl
  cases v with
  | str t =>
    refine pstep_kv _ k ('"' :: (t.data ++ ['"'])) _ path doc ?_ hk (parseValue_str t hv)
    simp [kvLineOf, quoteVal, String.data_append, d₁, d₂]
  | int n =>
    refine pstep_kv _ k (intStr n).data _ path doc ?_ hk (parseValue_int n)
    simp [kvLineOf, String.data_append, d₁]
  | arr xs =>
    rw [wfVal, Bool.and_eq_true] at hv
    obtain ⟨hxe, hxc⟩ := hv
    have hne : xs ≠ [] := by
      cases xs with
      | nil => simp at hxe
      | cons a t => simp
    have hclean : ∀ s ∈ xs, cleanStr s = true := by
      rw [List.all_eq_true] at hxc
      exact hxc
    refine pstep_kv _ k
      ('[' :: ((String.intercalate ", " (xs.map quoteVal)).data ++ [']'])) _ path doc ?_ hk
      (parseValue_arr xs hne hclean)
    simp [kvLineOf, String.data_append, d₃, d₄]
  | table t =>
    simp [wfVal] at hv

theorem pstep_header_top (sec : String) (hsec : bareKey sec = true)
    (st : Option (List String) × Table) :
    pstep st ("[" ++ sec ++ "]") = (mkTables st.2 [sec]).map (fun d => (some [sec], d)) := by
  rw [bareKey, Bool.and_eq_true] at hsec
  obtain ⟨hne, hall⟩ := hsec
  have hsd : sec.data ≠ [] := by
    intro hh
    rw [hh] at hne
    simp at hne
  have hdata : ("[" ++ sec ++ "]").data = '[' :: (sec.data ++ [']']) := by
    have d₅ : ("[" : String).data = ['['] := rfl
    have d₄ : ("]" : String).data = [']'] := rfl
    simp [String.data_append, d₅, d₄]
  calc pstep st ("[" ++ sec ++ "]")
      = (match hdrLoop (sec.data ++ [']']) [] [] with
        | none => none
        | some path => (mkTables st.2 path).map (fun d => (some path, d))) := by
        unfold pstep
        rw [hdata]
        rfl
    _ = (mkTables st.2 [sec]).map (fun d => (some [sec], d)) := by
        rw [hdrLoop_tail sec.data [] []
          (by rw [List.all_eq_true] at hall; exact hall) (Or.inr hsd)]
        rfl

theorem pstep_header_profile (name : String) (hname : bareKey name = true)
    (st : Option (List String) × Table) :
    pstep st ("[profiles." ++ name ++ "]") =
      (mkTables st.2 ["profiles", name]).map (fun d => (some ["profiles", name], d)) := by
  rw [bareKey, Bool.and_eq_true] at hname
  obtain ⟨hne, hall⟩ := hname
  have hsd : name.data ≠ [] := by
    intro hh
    rw [hh] at hne
    simp at hne
  have hdata : ("[profiles." ++ name ++ "]").data
      = '[' :: ('p' :: 'r' :: 'o' :: 'f' :: 'i' :: 'l' :: 'e' :: 's' :: '.'
          :: (name.data ++ [']'])) := by
    have d₅ : ("[profiles." : String).data
        = ['[', 'p', 'r', 'o', 'f', 'i', 'l', 'e', 's', '.'] := rfl
    have d₄ : ("]" : String).data = [']'] := rfl
    simp [String.data_append, d₅, d₄]
  calc pstep st ("[profiles." ++ name ++ "]")
      = (match hdrLoop (name.data ++ [']']) [] ["profiles"] with
        | none => none
        | some path => (mkTables st.2 path).map (fun d => (some path, d))) := by
        unfold pstep
        rw [hdata]
        rfl
    _ = (mkTables st.2 ["profiles", name]).map (fun d => (some ["profiles", name], d)) := by
        rw [hdrLoop_tail name.data [] ["profiles"]
          (by rw [List.all_eq_true] at hall; exact hall) (Or.inr hsd)]
        rfl

theorem run_kvs (path : List String) (F : Table → Table)
    (hF : ∀ t k v, List.lookup k t = none →
      tableInsert (F t) path k v = some (F (t ++ [(k, v)]))) :
    ∀ (kvs : List (String × TomlVal)) (t : Table) (rest : List String),
      (∀ p ∈ kvs, bareKey p.1 = true ∧ wfVal p.2 = true) →
      (∀ q ∈ kvs.map Prod.fst, List.lookup q t = none) →
      (kvs.map Prod.fst).Nodup →
      runLines (kvs.map (fun p => kvLineOf p.1 p.2) ++ rest) (some path, F t)
        = runLines rest (some path, F (t ++ kvs)) := by
  intro kvs
  induction kvs with
  | nil =>
    intro t rest _ _ _
    simp
  | cons p kvt ih =>
    intro t rest hwf hdisj hnodup
    obtain ⟨k, v⟩ := p
    obtain ⟨hk, hv⟩ := hwf (k, v) (List.mem_cons_self (k, v) kvt)
    rw [List.map_cons, List.cons_append, runLines_cons]
    rw [pstep_kvLineOf k v path (F t) hk hv]
    rw [hF t k v (hdisj k (by simp))]
    have hknotin : k ∉ kvt.map Prod.fst := by
      rw [List.map_cons] at hnodup
      exact (List.nodup_cons.mp hnodup).1
    have hdisj₂ : ∀ q ∈ kvt.map Prod.fst, List.lookup q (t ++ [(k, v)]) = none := by
      intro q hq
      rw [lookup_append_of_none t [(k, v)] q (hdisj q (by simp [hq]))]
      have hqk : (q == k) = false := by
        simp only [beq_eq_false_iff_ne, ne_eq]
        intro hh
        exact hknotin (hh ▸ hq)
      simp [List.lookup, hqk]
    have hnodup₂ : (kvt.map Prod.fst).Nodup := by
      rw [List.map_cons] at hnodup
      exact (List.nodup_cons.mp hnodup).2
    have hwf₂ : ∀ p ∈ kvt, bareKey p.1 = true ∧ wfVal p.2 = true :=
      fun p hp => hwf p (List.mem_cons_of_mem _ hp)
    have hbind : (some (some path, F (t ++ [(k, v)]))).bind
        (runLines (kvt.map (fun p => kvLineOf p.1 p.2) ++ rest))
        = runLines (kvt.map (fun p => kvLineOf p.1 p.2) ++ rest)
            (some path, F (t ++ [(k, v)])) := rfl
    show (Option.map (fun d => (some path, d)) (some (F (t ++ [(k, v)])))).bind
        (runLines (kvt.map (fun p => kvLineOf p.1 p.2) ++ rest))
      = runLines rest (some path, F (t ++ (k, v) :: kvt))
    rw [Option.map_some']
    rw [hbind]
    rw [ih (t ++ [(k, v)]) rest hwf₂ hdisj₂ hnodup₂]
    rw [List.append_assoc]
    rfl

theorem run_top_section (sec : String) (hsec : bareKey sec = true)
    (kvs : List (String × TomlVal)) (doc : Table) (p₀ : Option (List String))
    (rest : List String) (hnew : List.lookup sec doc = none)
    (hwf : ∀ p ∈ kvs, bareKey p.1 = true ∧ wfVal p.2 = true)
    (hnodup : (kvs.map Prod.fst).Nodup) :
    runLines (("[" ++ sec ++ "]") :: (kvs.map (fun p => kvLineOf p.1 p.2) ++ ("" :: rest)))
        (p₀, doc)
      = runLines rest (some [sec], doc ++ [(sec, TomlVal.table kvs)]) := by
  rw [runLines_cons, pstep_header_top sec hsec]
  have hmk : mkTables doc [sec] = some (doc ++ [(sec, TomlVal.table [])]) := by
    simp [mkTables, hnew]
  rw [hmk]
  have hF : ∀ t k v, List.lookup k t = none →
      tableInsert (doc ++ [(sec, TomlVal.table t)]) [sec] k v
        = some (doc ++ [(sec, TomlVal.table (t ++ [(k, v)]))]) := by
    intro t k v hkt
    show (match List.lookup sec (doc ++ [(sec, TomlVal.table t)]) with
      | some (.table tt) => (tableInsert tt [] k v).map
          (fun tt₂ => assocSet (doc ++ [(sec, TomlVal.table t)]) sec (.table tt₂))
      | some _ => none
      | none => (tableInsert [] [] k v).map
          (fun tt₂ => (doc ++ [(sec, TomlVal.table t)]) ++ [(sec, TomlVal.table tt₂)])) = _
    rw [lookup_append_self doc [] sec (TomlVal.table t) hnew]
    show (tableInsert t [] k v).map
        (fun tt₂ => assocSet (doc ++ [(sec, TomlVal.table t)]) sec (.table tt₂)) = _
    have hins : tableInsert t [] k v = some (t ++ [(k, v)]) := by
      show (match List.lookup k t with
        | some _ => none
        | none => some (t ++ [(k, v)])) = _
      rw [hkt]
    rw [hins, Option.map_some']
    rw [assocSet_append_of_none doc [] sec (TomlVal.table t) (TomlVal.table (t ++ [(k, v)])) hnew]
  have hrun := run_kvs [sec] (fun t => doc ++ [(sec, TomlVal.table t)]) hF kvs [] ("" :: rest)
    hwf (by simp) hnodup
  show (some (some [sec], doc ++ [(sec, TomlVal.table [])])).bind
      (runLines (kvs.map (fun p => kvLineOf p.1 p.2) ++ ("" :: rest)))
    = runLines rest (some [sec], doc ++ [(sec, TomlVal.table kvs)])
  rw [Option.some_bind]
  rw [hrun]
  rw [runLines_cons, pstep_blank]
  rfl

theorem mem_opt_singleton {α : Type} (q x : α) (b : Bool)
    (hq : q ∈ (if b = true then [x] else [])) : q = x := by
  by_cases hb : b = true
  · rw [if_pos hb] at hq
    simpa using hq
  · rw [if_neg hb] at hq
    simp at hq

theorem optClean_getD (o : Option String) (h : optClean o = true) :
    cleanStr (o.getD "") = true := by
  cases o with
  | none => decide
  | some s => exact h

theorem profileTable_wf (p : AuthConfig) (h₁ : optClean p.access_token = true)
    (h₂ : optClean p.refresh_token = true) :
    ∀ q ∈ profileTable p, bareKey q.1 = true ∧ wfVal q.2 = true := by
  intro q hq
  have hc₁ := optClean_getD _ h₁
  have hc₂ := optClean_getD _ h₂
  simp only [profileTable, List.mem_append] at hq
  rcases hq with ((hqa | hqb) | hqc) | hqd
  · rw [mem_opt_singleton _ _ _ hqa]
    exact ⟨(by decide : bareKey "access_token" = true), hc₁⟩
  · rw [mem_opt_singleton _ _ _ hqb]
    exact ⟨(by decide : bareKey "refresh_token" = true), hc₂⟩
  · rw [mem_opt_singleton _ _ _ hqc]
    exact ⟨(by decide : bareKey "expires_at" = true), rfl⟩
  · rw [mem_opt_singleton _ _ _ hqd]
    exact ⟨(by decide : bareKey "athlete_id" = true), rfl⟩

theorem profileTable_nodup (p : AuthConfig) : ((profileTable p).map Prod.fst).Nodup := by
  unfold profileTable
  split_ifs <;> simp_all

theorem authTable_wf (a : AuthConfig) (h₁ : optClean a.access_token = true)
    (h₂ : optClean a.refresh_token = true) (h₃ : a.scopes.all cleanStr = true) :
    ∀ q ∈ authTable a, bareKey q.1 = true ∧ wfVal q.2 = true := by
  intro q hq
  have hc₁ := optClean_getD _ h₁
  have hc₂ := optClean_getD _ h₂
  simp only [authTable, List.mem_append] at hq
  rcases hq with (((hqa | hqb) | hqc) | hqd) | hqe
  · rw [mem_opt_singleton _ _ _ hqa]
    exact ⟨(by decide : bareKey "access_token" = true), hc₁⟩
  · rw [mem_opt_singleton _ _ _ hqb]
    exact ⟨(by decide : bareKey "refresh_token" = true), hc₂⟩
  · rw [mem_opt_singleton _ _ _ hqc]
    exact ⟨(by decide : bareKey "expires_at" = true), rfl⟩
  · rw [mem_opt_singleton _ _ _ hqd]
    exact ⟨(by decide : bareKey "athlete_id" = true), rfl⟩
  · have hb : (!a.scopes.isEmpty) = true := by
      by_cases hsc : (!a.scopes.isEmpty) = true
      · exact hsc
      · rw [if_neg hsc] at hqe
        simp at hqe
    rw [if_pos hb] at hqe
    simp only [List.mem_singleton] at hqe
    rw [hqe]
    refine ⟨(by decide : bareKey "scopes" = true), ?_⟩
    show (!a.scopes.isEmpty && a.scopes.all cleanStr) = true
    rw [hb, h₃]
    rfl

theorem authTable_nodup (a : AuthConfig) : ((authTable a).map Prod.fst).Nodup := by
  unfold authTable
  split_ifs <;> simp_all

theorem clientTable_wf (c : Config) (h₁ : optClean c.client_id = true)
    (h₂ : optClean c.client_secret = true) :
    ∀ q ∈ clientTable c, bareKey q.1 = true ∧ wfVal q.2 = true := by
  intro q hq
  have hc₁ := optClean_getD _ h₁
  have hc₂ := optClean_getD _ h₂
  simp only [clientTable, List.mem_append] at hq
  rcases hq with hqa | hqb
  · rw [mem_opt_singleton _ _ _ hqa]
    exact ⟨(by decide : bareKey "id" = true), hc₁⟩
  · rw [mem_opt_singleton _ _ _ hqb]
    exact ⟨(by decide : bareKey "secret" = true), hc₂⟩

theorem clientTable_nodup (c : Config) : ((clientTable c).map Prod.fst).Nodup := by
  unfold clientTable
  split_ifs <;> simp_all

theorem defaultsTable_wf (d : DefaultsConfig) (h : cleanStr d.format = true) :
    ∀ q ∈ defaultsTable d, bareKey q.1 = true ∧ wfVal q.2 = true := by
  intro q hq
  simp only [defaultsTable, List.mem_cons, List.mem_singleton, List.not_mem_nil] at hq
  rcases hq with hq | hq
  · rw [hq]
    exact ⟨(by decide : bareKey "format" = true), h⟩
  · rcases hq with hq | hq
    · rw [hq]
      exact ⟨(by decide : bareKey "limit" = true), rfl⟩
    · simp at hq

theorem defaultsTable_nodup (d : DefaultsConfig) :
    ((defaultsTable d).map Prod.fst).Nodup := by
  simp [defaultsTable]

theorem mkTables_cons_table (T : Table) (p : String) (ps : List String) (tt : Table)
    (h : List.lookup p T = some (.table tt)) :
    mkTables T (p :: ps) = (mkTables tt ps).map (fun tt₂ => assocSet T p (TomlVal.table tt₂)) := by
  show (match List.lookup p T with
    | some (.table tt) => (mkTables tt ps).map (fun tt₂ => assocSet T p (TomlVal.table tt₂))
    | some _ => none
    | none => (mkTables [] ps).map (fun tt₂ => T ++ [(p, TomlVal.table tt₂)])) = _
  rw [h]

theorem mkTables_cons_none (T : Table) (p : String) (ps : List String)
    (h : List.lookup p T = none) :
    mkTables T (p :: ps) = (mkTables [] ps).map (fun tt₂ => T ++ [(p, TomlVal.table tt₂)]) := by
  show (match List.lookup p T with
    | some (.table tt) => (mkTables tt ps).map (fun tt₂ => assocSet T p (TomlVal.table tt₂))
    | some _ => none
    | none => (mkTables [] ps).map (fun tt₂ => T ++ [(p, TomlVal.table tt₂)])) = _
  rw [h]

theorem tableInsert_cons_table (T : Table) (p : String) (ps : List String) (k : String)
    (v : TomlVal) (tt : Table) (h : List.lookup p T = some (.table tt)) :
    tableInsert T (p :: ps) k v
      = (tableInsert tt ps k v).map (fun tt₂ => assocSet T p (TomlVal.table tt₂)) := by
  show (match List.lookup p T with
    | some (.table tt) => (tableInsert tt ps k v).map (fun tt₂ => assocSet T p (TomlVal.table tt₂))
    | some _ => none
    | none => (tableInsert [] ps k v).map (fun tt₂ => T ++ [(p, TomlVal.table tt₂)])) = _
  rw [h]

theorem tableInsert_nil_none (T : Table) (k : String) (v : TomlVal)
    (h : List.lookup k T = none) :
    tableInsert T [] k v = some (T ++ [(k, v)]) := by
  show (match List.lookup k T with
    | some _ => none
    | none => some (T ++ [(k, v)])) = _
  rw [h]

theorem tableInsert_depth2 (base prev : Table) (name : String)
    (hbase : List.lookup "profiles" base = none)
    (hprev : List.lookup name prev = none) :
    ∀ t k v, List.lookup k t = none →
      tableInsert (base ++ [("profiles", TomlVal.table (prev ++ [(name, TomlVal.table t)]))])
        ["profiles", name] k v
      = some (base ++ [("profiles",
          TomlVal.table (prev ++ [(name, TomlVal.table (t ++ [(k, v)]))]))]) := by
  intro t k v hkt
  rw [tableInsert_cons_table _ "profiles" [name] k v (prev ++ [(name, TomlVal.table t)])
    (lookup_append_self base [] "profiles" _ hbase)]
  rw [tableInsert_cons_table _ name [] k v t (lookup_append_self prev [] name _ hprev)]
  rw [tableInsert_nil_none t k v hkt]
  rw [Option.map_some', Option.map_some']
  rw [assocSet_append_of_none prev [] name _ _ hprev]
  rw [assocSet_append_of_none base [] "profiles" _ _ hbase]

theorem run_profile_kvs (base prev : Table) (name : String) (a : AuthConfig)
    (rest : List String) (hbase : List.lookup "profiles" base = none)
    (hprev : List.lookup name prev = none)
    (h₁ : optClean a.access_token = true) (h₂ : optClean a.refresh_token = true) :
    runLines ((profileTable a).map (fun p => kvLineOf p.1 p.2) ++ ("" :: rest))
        (some ["profiles", name],
          base ++ [("profiles", TomlVal.table (prev ++ [(name, TomlVal.table [])]))])
      = runLines rest (some ["profiles", name],
          base ++ [("profiles",
            TomlVal.table (prev ++ [(name, TomlVal.table (profileTable a))]))]) := by
  have hrun := run_kvs ["profiles", name]
    (fun t => base ++ [("profiles", TomlVal.table (prev ++ [(name, TomlVal.table t)]))])
    (tableInsert_depth2 base prev name hbase hprev)
    (profileTable a) [] ("" :: rest) (profileTable_wf a h₁ h₂) (by simp)
    (profileTable_nodup a)
  rw [hrun]
  rw [runLines_cons, pstep_blank]
  rfl

theorem run_profile_one (base prev : Table) (name : String) (a : AuthConfig)
    (p₀ : Option (List String)) (rest : List String)
    (hbase : List.lookup "profiles" base = none)
    (hprev : List.lookup name prev = none) (hname : bareKey name = true)
    (h₁ : optClean a.access_token = true) (h₂ : optClean a.refresh_token = true)
    (hlines : profileSectionLines name a =
      ("[profiles." ++ name ++ "]")
        :: ((profileTable a).map (fun q => kvLineOf q.1 q.2) ++ [""])) :
    runLines (profileSectionLines name a ++ rest)
        (p₀, base ++ [("profiles", TomlVal.table prev)])
      = runLines rest (some ["profiles", name],
          base ++ [("profiles",
            TomlVal.table (prev ++ [(name, TomlVal.table (profileTable a))]))]) := by
  rw [hlines]
  rw [List.cons_append, runLines_cons, pstep_header_profile name hname]
  have hmk : mkTables (base ++ [("profiles", TomlVal.table prev)]) ["profiles", name]
      = some (base ++ [("profiles", TomlVal.table (prev ++ [(name, TomlVal.table [])]))]) := by
    rw [mkTables_cons_table _ "profiles" [name] prev
      (lookup_append_self base [] "profiles" _ hbase)]
    rw [mkTables_cons_none prev name [] hprev]
    show some (assocSet (base ++ [("profiles", TomlVal.table prev)]) "profiles"
      (TomlVal.table (prev ++ [(name, TomlVal.table [])]))) = _
    rw [assocSet_append_of_none base [] "profiles" _ _ hbase]
  rw [hmk]
  rw [List.append_assoc]
  show runLines ((profileTable a).map (fun q => kvLineOf q.1 q.2) ++ ("" :: rest))
      (some ["profiles", name],
        base ++ [("profiles", TomlVal.table (prev ++ [(name, TomlVal.table [])]))])
    = _
  rw [run_profile_kvs base prev name a rest hbase hprev h₁ h₂]

theorem run_profile_first (base : Table) (name : String) (a : AuthConfig)
    (p₀ : Option (List String)) (rest : List String)
    (hbase : List.lookup "profiles" base = none) (hname : bareKey name = true)
    (h₁ : optClean a.access_token = true) (h₂ : optClean a.refresh_token = true)
    (hlines : profileSectionLines name a =
      ("[profiles." ++ name ++ "]")
        :: ((profileTable a).map (fun q => kvLineOf q.1 q.2) ++ [""])) :
    runLines (profileSectionLines name a ++ rest) (p₀, base)
      = runLines rest (some ["profiles", name],
          base ++ [("profiles", TomlVal.table [(name, TomlVal.table (profileTable a))])]) := by
  rw [hlines]
  rw [List.cons_append, runLines_cons, pstep_header_profile name hname]
  have hmk : mkTables base ["profiles", name]
      = some (base ++ [("profiles", TomlVal.table [(name, TomlVal.table [])])]) := by
    rw [mkTables_cons_none base "profiles" [name] hbase]
    rw [mkTables_cons_none [] name [] rfl]
    rfl
  rw [hmk]
  rw [List.append_assoc]
  show runLines ((profileTable a).map (fun q => kvLineOf q.1 q.2) ++ ("" :: rest))
      (some ["profiles", name],
        base ++ [("profiles", TomlVal.table [(name, TomlVal.table [])])])
    = _
  have hrw := run_profile_kvs base [] name a rest hbase (by rfl) h₁ h₂
  simp only [List.nil_append] at hrw
  rw [hrw]

theorem lookup_singleton_ne {α : Type} (k m : String) (v : α) (h : (k == m) = false) :
    List.lookup k [(m, v)] = none := by
  simp [List.lookup, h]

theorem clientLines_eq (c : Config)
    (h : (pyTruthyStr c.client_id || pyTruthyStr c.client_secret) = true) :
    clientLines c
      = "[client]" :: ((clientTable c).map (fun q => kvLineOf q.1 q.2) ++ [""]) := by
  unfold clientLines clientTable
  rw [if_pos h]
  split_ifs <;> rfl

theorem authSectionLines_eq (a : AuthConfig) :
    authSectionLines a
      = "[auth]" :: ((authTable a).map (fun q => kvLineOf q.1 q.2) ++ [""]) := by
  unfold authSectionLines authTable
  split_ifs <;> rfl

theorem defaultsSectionLines_eq (d : DefaultsConfig) :
    defaultsSectionLines d
      = "[defaults]" :: ((defaultsTable d).map (fun q => kvLineOf q.1 q.2) ++ [""]) := rfl

theorem profileSectionLines_eq (name : String) (p : AuthConfig) :
    profileSectionLines name p
      = ("[profiles." ++ name ++ "]")
          :: ((profileTable p).map (fun q => kvLineOf q.1 q.2) ++ [""]) := by
  unfold profileSectionLines profileTable
  split_ifs <;> rfl

theorem run_profiles_aux :
    ∀ (ps : List (String × AuthConfig)) (base prev : Table) (p₀ : Option (List String)),
      List.lookup "profiles" base = none →
      (∀ n ∈ ps.map Prod.fst, List.lookup n prev = none) →
      (ps.map Prod.fst).Nodup →
      (∀ p ∈ ps, bareKey p.1 = true ∧ optClean p.2.access_token = true ∧
        optClean p.2.refresh_token = true) →
      ∃ pe, runLines ((ps.map (fun p => profileSectionLines p.1 p.2)).flatten)
          (p₀, base ++ [("profiles", TomlVal.table prev)])
        = some (pe, base ++ [("profiles", TomlVal.table (prev ++ profilesTables ps))]) := by
  intro ps
  induction ps with
  | nil =>
    intro base prev p₀ hbase hdisj hnodup hwf
    refine ⟨p₀, ?_⟩
    show some (p₀, base ++ [("profiles", TomlVal.table prev)]) = _
    rw [show prev ++ profilesTables [] = prev from List.append_nil prev]
  | cons p ps₂ ih =>
    intro base prev p₀ hbase hdisj hnodup hwf
    obtain ⟨name, a⟩ := p
    obtain ⟨hname, h₁, h₂⟩ := hwf (name, a) (List.mem_cons_self _ _)
    have hflat : ((name, a) :: ps₂).map (fun p => profileSectionLines p.1 p.2)
        = profileSectionLines name a :: ps₂.map (fun p => profileSectionLines p.1 p.2) := rfl
    rw [hflat, List.flatten_cons]
    rw [run_profile_one base prev name a p₀ _ hbase
      (hdisj name (by simp)) hname h₁ h₂ (profileSectionLines_eq name a)]
    have hknotin : name ∉ ps₂.map Prod.fst := by
      rw [List.map_cons] at hnodup
      exact (List.nodup_cons.mp hnodup).1
    have hdisj₂ : ∀ n ∈ ps₂.map Prod.fst,
        List.lookup n (prev ++ [(name, TomlVal.table (profileTable a))]) = none := by
      intro n hn
      rw [lookup_append_of_none prev _ n (hdisj n (by simp [hn]))]
      refine lookup_singleton_ne n name _ ?_
      simp only [beq_eq_false_iff_ne, ne_eq]
      intro hh
      exact hknotin (hh ▸ hn)
    have hnodup₂ : (ps₂.map Prod.fst).Nodup := by
      rw [List.map_cons] at hnodup
      exact (List.nodup_cons.mp hnodup).2
    have hwf₂ : ∀ p ∈ ps₂, bareKey p.1 = true ∧ optClean p.2.access_token = true ∧
        optClean p.2.refresh_token = true := fun p hp => hwf p (List.mem_cons_of_mem _ hp)
    obtain ⟨pe, hpe⟩ := ih base (prev ++ [(name, TomlVal.table (profileTable a))])
      (some ["profiles", name]) hbase hdisj₂ hnodup₂ hwf₂
    refine ⟨pe, ?_⟩
    rw [hpe, List.append_assoc]
    rfl

theorem run_profiles (ps : List (String × AuthConfig)) (base : Table)
    (p₀ : Option (List String)) (hbase : List.lookup "profiles" base = none)
    (hnodup : (ps.map Prod.fst).Nodup)
    (hwf : ∀ p ∈ ps, bareKey p.1 = true ∧ optClean p.2.access_token = true ∧
      optClean p.2.refresh_token = true) :
    ∃ pe, runLines ((ps.map (fun p => profileSectionLines p.1 p.2)).flatten) (p₀, base)
        = some (pe, base ++ profilesEntry ps) := by
  cases ps with
  | nil =>
    refine ⟨p₀, ?_⟩
    show some (p₀, base) = _
    rw [show base ++ profilesEntry [] = base from List.append_nil base]
  | cons p ps₂ =>
    obtain ⟨name, a⟩ := p
    obtain ⟨hname, h₁, h₂⟩ := hwf (name, a) (List.mem_cons_self _ _)
    have hflat : ((name, a) :: ps₂).map (fun p => profileSectionLines p.1 p.2)
        = profileSectionLines name a :: ps₂.map (fun p => profileSectionLines p.1 p.2) := rfl
    rw [hflat, List.flatten_cons]
    rw [run_profile_first base name a p₀ _ hbase hname h₁ h₂ (profileSectionLines_eq name a)]
    have hknotin : name ∉ ps₂.map Prod.fst := (List.nodup_cons.mp (by
      rw [List.map_cons] at hnodup
      exact hnodup)).1
    have hdisj₂ : ∀ n ∈ ps₂.map Prod.fst,
        List.lookup n [(name, TomlVal.table (profileTable a))] = none := by
      intro n hn
      refine lookup_singleton_ne n name _ ?_
      simp only [beq_eq_false_iff_ne, ne_eq]
      intro hh
      exact hknotin (hh ▸ hn)
    have hnodup₂ : (ps₂.map Prod.fst).Nodup := by
      rw [List.map_cons] at hnodup
      exact (List.nodup_cons.mp hnodup).2
    have hwf₂ : ∀ p ∈ ps₂, bareKey p.1 = true ∧ optClean p.2.access_token = true ∧
        optClean p.2.refresh_token = true := fun p hp => hwf p (List.mem_cons_of_mem _ hp)
    obtain ⟨pe, hpe⟩ := run_profiles_aux ps₂ base [(name, TomlVal.table (profileTable a))]
      (some ["profiles", name]) hbase hdisj₂ hnodup₂ hwf₂
    exact ⟨pe, hpe⟩

theorem run_from_auth (c : Config) (doc : Table) (p₀ : Option (List String))
    (hauth : List.lookup "auth" doc = none)
    (hdef : List.lookup "defaults" doc = none)
    (hprof : List.lookup "profiles" doc = none)
    (h₁ : optClean c.auth.access_token = true) (h₂ : optClean c.auth.refresh_token = true)
    (h₃ : c.auth.scopes.all cleanStr = true) (hfmt : cleanStr c.defaults.format = true)
    (hps : ∀ p ∈ c.profiles, bareKey p.1 = true ∧ optClean p.2.access_token = true ∧
      optClean p.2.refresh_token = true)
    (hnodup : (c.profiles.map Prod.fst).Nodup) :
    ∃ pe, runLines (authSectionLines c.auth ++ (defaultsSectionLines c.defaults
        ++ (c.profiles.map (fun p => profileSectionLines p.1 p.2)).flatten)) (p₀, doc)
      = some (pe, ((doc ++ [("auth", TomlVal.table (authTable c.auth))])
          ++ [("defaults", TomlVal.table (defaultsTable c.defaults))])
          ++ profilesEntry c.profiles) := by
  have step₁ : runLines (authSectionLines c.auth ++ (defaultsSectionLines c.defaults
        ++ (c.profiles.map (fun p => profileSectionLines p.1 p.2)).flatten)) (p₀, doc)
      = runLines (defaultsSectionLines c.defaults
          ++ (c.profiles.map (fun p => profileSectionLines p.1 p.2)).flatten)
        (some ["auth"], doc ++ [("auth", TomlVal.table (authTable c.auth))]) := by
    rw [authSectionLines_eq, List.cons_append, List.append_assoc]
    exact run_top_section "auth" (by decide) (authTable c.auth) doc p₀ _ hauth
      (authTable_wf c.auth h₁ h₂ h₃) (authTable_nodup c.auth)
  have hdef₂ : List.lookup "defaults" (doc ++ [("auth", TomlVal.table (authTable c.auth))])
      = none := by
    rw [lookup_append_of_none doc _ _ hdef]
    exact lookup_singleton_ne _ _ _ (by decide)
  have step₂ : runLines (defaultsSectionLines c.defaults
        ++ (c.profiles.map (fun p => profileSectionLines p.1 p.2)).flatten)
        (some ["auth"], doc ++ [("auth", TomlVal.table (authTable c.auth))])
      = runLines ((c.profiles.map (fun p => profileSectionLines p.1 p.2)).flatten)
        (some ["defaults"], (doc ++ [("auth", TomlVal.table (authTable c.auth))])
          ++ [("defaults", TomlVal.table (defaultsTable c.defaults))]) := by
    rw [defaultsSectionLines_eq, List.cons_append, List.append_assoc]
    exact run_top_section "defaults" (by decide) (defaultsTable c.defaults) _ _ _ hdef₂
      (defaultsTable_wf c.defaults hfmt) (defaultsTable_nodup c.defaults)
  have hprof₂ : List.lookup "profiles" ((doc ++ [("auth", TomlVal.table (authTable c.auth))])
      ++ [("defaults", TomlVal.table (defaultsTable c.defaults))]) = none := by
    rw [lookup_append_of_none _ _ _ (by
      rw [lookup_append_of_none doc _ _ hprof]
      exact lookup_singleton_ne _ _ _ (by decide))]
    exact lookup_singleton_ne _ _ _ (by decide)
  obtain ⟨pe, hpe⟩ := run_profiles c.profiles
    ((doc ++ [("auth", TomlVal.table (authTable c.auth))])
      ++ [("defaults", TomlVal.table (defaultsTable c.defaults))])
    (some ["defaults"]) hprof₂ hnodup hps
  exact ⟨pe, by rw [step₁, step₂, hpe]⟩

theorem parse_saveLines (c : Config) (h : serializableB c = true) :
    parseToml c.saveLines = some (expectedDoc c) := by
  simp only [serializableB, cleanAuth, Bool.and_eq_true, decide_eq_true_eq] at h
  obtain ⟨⟨⟨⟨⟨hcid, hcsec⟩, ⟨hat, hart⟩, hsc⟩, hfmt⟩, hall⟩, hnodup⟩ := h
  have hps : ∀ p ∈ c.profiles, bareKey p.1 = true ∧ optClean p.2.access_token = true ∧
      optClean p.2.refresh_token = true := by
    intro p hp
    rw [List.all_eq_true] at hall
    have hh := hall p hp
    rw [Bool.and_eq_true, Bool.and_eq_true] at hh
    exact ⟨hh.1.1, hh.1.2, hh.2⟩
  by_cases hcl : (pyTruthyStr c.client_id || pyTruthyStr c.client_secret) = true
  · have hsl : c.saveLines = "[client]"
        :: (((clientTable c).map (fun q => kvLineOf q.1 q.2))
          ++ ("" :: (authSectionLines c.auth ++ (defaultsSectionLines c.defaults
            ++ (c.profiles.map (fun p => profileSectionLines p.1 p.2)).flatten)))) := by
      unfold Config.saveLines
      rw [clientLines_eq c hcl]
      simp only [List.append_assoc, List.cons_append, List.singleton_append, List.nil_append]
    have hfirst : runLines c.saveLines (none, [])
        = runLines (authSectionLines c.auth ++ (defaultsSectionLines c.defaults
            ++ (c.profiles.map (fun p => profileSectionLines p.1 p.2)).flatten))
          (some ["client"], [("client", TomlVal.table (clientTable c))]) := by
      rw [hsl]
      exact run_top_section "client" (by decide) (clientTable c) [] none _ rfl
        (clientTable_wf c hcid hcsec) (clientTable_nodup c)
    obtain ⟨pe, hpe⟩ := run_from_auth c [("client", TomlVal.table (clientTable c))]
      (some ["client"]) (lookup_singleton_ne _ _ _ (by decide))
      (lookup_singleton_ne _ _ _ (by decide)) (lookup_singleton_ne _ _ _ (by decide))
      hat hart hsc hfmt hps hnodup
    show (runLines c.saveLines (none, [])).map (fun st => st.2) = some (expectedDoc c)
    rw [hfirst, hpe]
    simp only [Option.map_some']
    congr 1
    rw [expectedDoc, clientEntry, if_pos hcl]
    simp [List.append_assoc]
  · have hcl₂ : (pyTruthyStr c.client_id || pyTruthyStr c.client_secret) = false :=
      Bool.not_eq_true _ ▸ hcl
    have hsl : c.saveLines = authSectionLines c.auth ++ (defaultsSectionLines c.defaults
        ++ (c.profiles.map (fun p => profileSectionLines p.1 p.2)).flatten) := by
      unfold Config.saveLines clientLines
      rw [if_neg hcl]
      simp only [List.append_assoc, List.nil_append]
    obtain ⟨pe, hpe⟩ := run_from_auth c [] none rfl rfl rfl hat hart hsc hfmt hps hnodup
    show (runLines c.saveLines (none, [])).map (fun st => st.2) = some (expectedDoc c)
    rw [hsl, hpe]
    simp only [Option.map_some']
    congr 1
    rw [expectedDoc, clientEntry, if_neg hcl]
    simp [List.append_assoc]

theorem lookup_authTable_access (a : AuthConfig) :
    asStr (List.lookup "access_token" (authTable a)) = normStr a.access_token := by
  unfold authTable normStr
  split_ifs <;>
    first
      | rfl
      | (show some (a.access_token.getD "") = a.access_token
         exact (truthy_getD_str _ (by assumption)).symm)

theorem lookup_authTable_refresh (a : AuthConfig) :
    asStr (List.lookup "refresh_token" (authTable a)) = normStr a.refresh_token := by
  unfold authTable normStr
  split_ifs <;>
    first
      | rfl
      | (show some (a.refresh_token.getD "") = a.refresh_token
         exact (truthy_getD_str _ (by assumption)).symm)

theorem lookup_authTable_expires (a : AuthConfig) :
    asInt (List.lookup "expires_at" (authTable a)) = normInt a.expires_at := by
  unfold authTable normInt
  split_ifs <;>
    first
      | rfl
      | (show some (a.expires_at.getD 0) = a.expires_at
         exact (truthy_getD_int _ (by assumption)).symm)

theorem lookup_authTable_athlete (a : AuthConfig) :
    asInt (List.lookup "athlete_id" (authTable a)) = normInt a.athlete_id := by
  unfold authTable normInt
  split_ifs <;>
    first
      | rfl
      | (show some (a.athlete_id.getD 0) = a.athlete_id
         exact (truthy_getD_int _ (by assumption)).symm)

theorem lookup_authTable_scopes (a : AuthConfig) :
    asArrD (List.lookup "scopes" (authTable a)) = a.scopes := by
  unfold authTable
  split_ifs <;>
    first
      | rfl
      | (show ([] : List String) = a.scopes
         have hh : a.scopes.isEmpty = true := by
           have hg : ¬(!a.scopes.isEmpty) = true := by assumption
           rw [Bool.not_eq_true] at hg
           simpa using hg
         rw [List.isEmpty_iff] at hh
         exact hh.symm)

theorem authFromTable_authTable (a : AuthConfig) :
    authFromTable (authTable a) = normAuth a := by
  unfold authFromTable normAuth
  rw [lookup_authTable_access, lookup_authTable_refresh, lookup_authTable_expires,
    lookup_authTable_athlete, lookup_authTable_scopes]

theorem lookup_profileTable_access (p : AuthConfig) :
    asStr (List.lookup "access_token" (profileTable p)) = normStr p.access_token := by
  unfold profileTable normStr
  split_ifs <;>
    first
      | rfl
      | (show some (p.access_token.getD "") = p.access_token
         exact (truthy_getD_str _ (by assumption)).symm)

theorem lookup_profileTable_refresh (p : AuthConfig) :
    asStr (List.lookup "refresh_token" (profileTable p)) = normStr p.refresh_token := by
  unfold profileTable normStr
  split_ifs <;>
    first
      | rfl
      | (show some (p.refresh_token.getD "") = p.refresh_token
         exact (truthy_getD_str _ (by assumption)).symm)

theorem lookup_profileTable_expires (p : AuthConfig) :
    asInt (List.lookup "expires_at" (profileTable p)) = normInt p.expires_at := by
  unfold profileTable normInt
  split_ifs <;>
    first
      | rfl
      | (show some (p.expires_at.getD 0) = p.expires_at
         exact (truthy_getD_int _ (by assumption)).symm)

theorem lookup_profileTable_athlete (p : AuthConfig) :
    asInt (List.lookup "athlete_id" (profileTable p)) = normInt p.athlete_id := by
  unfold profileTable normInt
  split_ifs <;>
    first
      | rfl
      | (show some (p.athlete_id.getD 0) = p.athlete_id
         exact (truthy_getD_int _ (by assumption)).symm)

theorem lookup_profileTable_scopes (p : AuthConfig) :
    List.lookup "scopes" (profileTable p) = none := by
  unfold profileTable
  split_ifs <;> rfl

theorem authFromTable_profileTable (p : AuthConfig) :
    authFromTable (profileTable p) = { normAuth p with scopes := [] } := by
  unfold authFromTable normAuth
  rw [lookup_profileTable_access, lookup_profileTable_refresh, lookup_profileTable_expires,
    lookup_profileTable_athlete, lookup_profileTable_scopes]
  rfl

theorem lookup_clientTable_id (c : Config) :
    asStr (List.lookup "id" (clientTable c)) = normStr c.client_id := by
  unfold clientTable normStr
  split_ifs <;>
    first
      | rfl
      | (show some (c.client_id.getD "") = c.client_id
         exact (truthy_getD_str _ (by assumption)).symm)

theorem lookup_clientTable_secret (c : Config) :
    asStr (List.lookup "secret" (clientTable c)) = normStr c.client_secret := by
  unfold clientTable normStr
  split_ifs <;>
    first
      | rfl
      | (show some (c.client_secret.getD "") = c.client_secret
         exact (truthy_getD_str _ (by assumption)).symm)

theorem clientTable_nonempty (c : Config)
    (h : (pyTruthyStr c.client_id || pyTruthyStr c.client_secret) = true) :
    (clientTable c).isEmpty = false := by
  unfold clientTable
  rcases Bool.or_eq_true _ _ |>.mp h with h₁ | h₂
  · rw [if_pos h₁]
    split_ifs <;> rfl
  · rw [if_pos h₂]
    split_ifs <;> rfl

theorem ite_singleton_eq_nil {α : Type} (b : Bool) (x : α)
    (h : (if b = true then [x] else []) = []) : b = false := by
  by_cases hb : b = true
  · rw [if_pos hb] at h
    simp at h
  · rw [Bool.not_eq_true] at hb
    exact hb

theorem authTable_cases (a : AuthConfig) :
    (if (authTable a).isEmpty then ({} : AuthConfig) else authFromTable (authTable a))
      = normAuth a := by
  by_cases he : (authTable a).isEmpty = true
  · rw [if_pos he]
    have hnil : authTable a = [] := by
      rw [← List.isEmpty_iff]
      exact he
    unfold authTable at hnil
    rw [List.append_eq_nil, List.append_eq_nil, List.append_eq_nil, List.append_eq_nil] at hnil
    obtain ⟨⟨⟨⟨hA, hB⟩, hC⟩, hD⟩, hE⟩ := hnil
    have h₁ := ite_singleton_eq_nil _ _ hA
    have h₂ := ite_singleton_eq_nil _ _ hB
    have h₃ := ite_singleton_eq_nil _ _ hC
    have h₄ := ite_singleton_eq_nil _ _ hD
    have h₅ := ite_singleton_eq_nil _ _ hE
    have hsc : a.scopes = [] := by
      rw [← List.isEmpty_iff]
      simpa using h₅
    unfold normAuth normStr normInt
    rw [h₁, h₂, h₃, h₄, hsc]
    rfl
  · rw [if_neg he]
    exact authFromTable_authTable a

theorem getTableD_expected_client (c : Config) :
    getTableD (expectedDoc c) "client"
      = (if (pyTruthyStr c.client_id || pyTruthyStr c.client_secret) = true
         then clientTable c else []) := by
  unfold expectedDoc clientEntry profilesEntry getTableD
  split_ifs <;> rfl

theorem getTableD_expected_auth (c : Config) :
    getTableD (expectedDoc c) "auth" = authTable c.auth := by
  unfold expectedDoc clientEntry profilesEntry getTableD
  split_ifs <;> rfl

theorem getTableD_expected_defaults (c : Config) :
    getTableD (expectedDoc c) "defaults" = defaultsTable c.defaults := by
  unfold expectedDoc clientEntry profilesEntry getTableD
  split_ifs <;> rfl

theorem getTableD_expected_profiles (c : Config) :
    getTableD (expectedDoc c) "profiles"
      = (if c.profiles.isEmpty then [] else profilesTables c.profiles) := by
  unfold expectedDoc clientEntry profilesEntry getTableD
  split_ifs <;> rfl

theorem profilesTables_load (ps : List (String × AuthConfig)) :
    (profilesTables ps).map (fun p => (p.1, authFromTable (tableOf p.2)))
      = ps.map (fun p => (p.1, { normAuth p.2 with scopes := ([] : List String) })) := by
  induction ps with
  | nil => rfl
  | cons p t ih =>
    obtain ⟨n, a⟩ := p
    show (n, authFromTable (tableOf (TomlVal.table (profileTable a))))
        :: (profilesTables t).map (fun p => (p.1, authFromTable (tableOf p.2))) = _
    rw [ih]
    show (n, authFromTable (profileTable a)) :: _ = _
    rw [authFromTable_profileTable a]
    rfl

theorem loadFromData_expected (c : Config) :
    loadFromData (expectedDoc c) = normalizeConfig c := by
  unfold loadFromData
  rw [getTableD_expected_client, getTableD_expected_auth, getTableD_expected_defaults,
    getTableD_expected_profiles]
  unfold normalizeConfig
  have hauth := authTable_cases c.auth
  have hcid : (if (if (pyTruthyStr c.client_id || pyTruthyStr c.client_secret) = true
        then clientTable c else []).isEmpty = true then none
      else asStr (List.lookup "id" (if (pyTruthyStr c.client_id || pyTruthyStr c.client_secret)
        = true then clientTable c else []))) = normStr c.client_id := by
    by_cases hcl : (pyTruthyStr c.client_id || pyTruthyStr c.client_secret) = true
    · rw [if_pos hcl, clientTable_nonempty c hcl]
      rw [if_neg (by simp)]
      exact lookup_clientTable_id c
    · rw [if_neg hcl]
      have hf : pyTruthyStr c.client_id = false := by
        rcases Bool.or_eq_false_iff.mp (Bool.not_eq_true _ ▸ hcl) with ⟨h₁, h₂⟩
        exact h₁
      show (none : Option String) = normStr c.client_id
      simp [normStr, hf]
  have hcsec : (if (if (pyTruthyStr c.client_id || pyTruthyStr c.client_secret) = true
        then clientTable c else []).isEmpty = true then none
      else asStr (List.lookup "secret" (if (pyTruthyStr c.client_id
        || pyTruthyStr c.client_secret) = true then clientTable c else [])))
      = normStr c.client_secret := by
    by_cases hcl : (pyTruthyStr c.client_id || pyTruthyStr c.client_secret) = true
    · rw [if_pos hcl, clientTable_nonempty c hcl]
      rw [if_neg (by simp)]
      exact lookup_clientTable_secret c
    · rw [if_neg hcl]
      have hf : pyTruthyStr c.client_secret = false := by
        rcases Bool.or_eq_false_iff.mp (Bool.not_eq_true _ ▸ hcl) with ⟨h₁, h₂⟩
        exact h₂
      show (none : Option String) = normStr c.client_secret
      simp [normStr, hf]
  have hprofs : (if c.profiles.isEmpty then ([] : Table)
        else profilesTables c.profiles).map (fun p => (p.1, authFromTable (tableOf p.2)))
      = c.profiles.map (fun p => (p.1, { normAuth p.2 with scopes := ([] : List String) })) := by
    by_cases hpe : c.profiles.isEmpty = true
    · rw [if_pos hpe]
      rw [List.isEmpty_iff] at hpe
      rw [hpe]
      rfl
    · rw [if_neg hpe]
      exact profilesTables_load c.profiles
  simp only [Config.mk.injEq]
  refine ⟨?_, ?_, ?_, ?_, ?_⟩
  · exact hauth
  · rfl
  · exact hprofs
  · exact hcid
  · exact hcsec

theorem apply_env_overrides_empty (c : Config) : c.apply_env_overrides {} = c := rfl

/-! Claim theorems. -/

/-- C6: is_authenticated holds exactly when the access token is present
and depends on nothing else; is_expired holds exactly when expires_at is
absent or at most the current time, and is false when expires_at is
strictly after the current time. -/
theorem c6_auth_predicates (a : AuthConfig) (now : Int) :
    (a.is_authenticated = true ↔ ∃ t, a.access_token = some t) ∧
    (∀ b : AuthConfig, b.access_token = a.access_token →
      b.is_authenticated = a.is_authenticated) ∧
    (a.is_expired now = true ↔
      a.expires_at = none ∨ ∃ e, a.expires_at = some e ∧ e ≤ now) ∧
    (∀ e, a.expires_at = some e → now < e → a.is_expired now = false) := by
  refine ⟨?_, ?_, ?_, ?_⟩
  · simp [AuthConfig.is_authenticated, Option.isSome_iff_exists]
  · intro b hb
    simp [AuthConfig.is_authenticated, hb]
  · cases h : a.expires_at with
    | none => simp [AuthConfig.is_expired, h]
    | some e =>
      simp only [AuthConfig.is_expired, h, decide_eq_true_eq]
      constructor
      · intro hh
        exact Or.inr ⟨e, rfl, by omega⟩
      · rintro (hc | ⟨e₂, he₂, hle⟩)
        · exact absurd hc (by simp)
        · rw [Option.some_inj] at he₂
          omega
  · intro e he hlt
    simp only [AuthConfig.is_expired, he, decide_eq_false_iff_not]
    omega

/-- C6 witness: a record expiring exactly now is expired, one expiring
one tick later is not. -/
theorem c6_witness :
    ({ access_token := some "tok", expires_at := some 7 } : AuthConfig).is_expired 7 = true ∧
    ({ access_token := some "tok", expires_at := some 7 } : AuthConfig).is_expired 6 = false := by
  constructor
  · exact (c6_auth_predicates { access_token := some "tok", expires_at := some 7 } 7).2.2.1.mpr
      (Or.inr ⟨7, rfl, le_refl 7⟩)
  · exact (c6_auth_predicates { access_token := some "tok", expires_at := some 7 } 6).2.2.2 7 rfl
      (by omega)

/-- C1 counterexample: an authenticated record that is expired and has
no refresh token makes ensure_authenticated succeed, not fail with
AuthenticationError. -/
theorem c1_counterexample :
    ensureAuthenticated { endpoint := .error "unused" } 100
      { config := { auth := { access_token := some "tok", expires_at := some 0 } } } =
    .ok { config := { auth := { access_token := some "tok", expires_at := some 0 } } } := by
  decide

/-- C1 amended: for every authenticated record that is expired with a
falsy refresh token, ensure_authenticated proceeds without error and
without refreshing, returning the state unchanged. -/
theorem c1_expired_no_refresh_proceeds (env : RefreshEnv) (now : Int) (st : ClientState)
    (hauth : (st.config.get_profile st.profile).is_authenticated = true)
    (hexp : (st.config.get_profile st.profile).is_expired now = true)
    (href : pyTruthyStr (st.config.get_profile st.profile).refresh_token = false) :
    ensureAuthenticated env now st = .ok st := by
  unfold ensureAuthenticated
  simp [hauth, hexp, href]

/-- C1 witness: the amended claim at a concrete expired record without a
refresh token. -/
theorem c1_witness :
    ensureAuthenticated { endpoint := .error "unused" } 50
      { config := { auth := { access_token := some "a", expires_at := some 3 } } } =
    .ok { config := { auth := { access_token := some "a", expires_at := some 3 } } } :=
  c1_expired_no_refresh_proceeds { endpoint := .error "unused" } 50
    { config := { auth := { access_token := some "a", expires_at := some 3 } } }
    (by decide) (by decide) (by decide)

/-- C2: the callback validation surfaces a truthy provider error and
never exchanges then, fails as a timeout when no truthy code arrived,
fails as CSRF when the received state differs from the generated token
and never exchanges the code then, and reaches the exchange only with
the received code when the state matches exactly and no error was
reported. -/
theorem c2_callback_validation (cb : CallbackState) (expected : String) :
    (pyTruthyStr cb.error = true →
      validateCallback cb expected = .providerError (cb.error.getD "") ∧
      ∀ c, validateCallback cb expected ≠ .exchange c) ∧
    (pyTruthyStr cb.error = false → pyTruthyStr cb.auth_code = false →
      validateCallback cb expected = .timeout) ∧
    (pyTruthyStr cb.error = false → pyTruthyStr cb.auth_code = true →
      cb.state ≠ some expected →
      validateCallback cb expected = .csrfMismatch ∧
      ∀ c, validateCallback cb expected ≠ .exchange c) ∧
    (∀ c, validateCallback cb expected = .exchange c →
      cb.auth_code = some c ∧ pyTruthyStr cb.error = false ∧ cb.state = some expected) := by
  refine ⟨?_, ?_, ?_, ?_⟩
  · intro he
    simp [validateCallback, he]
  · intro he hc
    simp [validateCallback, he, hc]
  · intro he hc hs
    simp [validateCallback, he, hc, hs]
  · intro c hx
    unfold validateCallback at hx
    by_cases he : pyTruthyStr cb.error = true
    · simp [he] at hx
    · simp only [Bool.not_eq_true] at he
      by_cases hc : pyTruthyStr cb.auth_code = true
      · by_cases hs : cb.state = some expected
        · simp [he, hc, hs] at hx
          rcases truthy_getD_str cb.auth_code hc with hsome
          exact ⟨by rw [hsome, hx], he, hs⟩
        · simp [he, hc, hs] at hx
      · simp only [Bool.not_eq_true] at hc
        simp [he, hc] at hx

/-- C2 witness: a provider error access_denied at a concrete callback
state surfaces the provider error string. -/
theorem c2_witness :
    validateCallback { error := some "access_denied" } "st" =
      .providerError "access_denied" :=
  ((c2_callback_validation { error := some "access_denied" } "st").1 (by decide)).1

/-- C4: with configured client credentials and a present refresh token,
a successful endpoint response makes refresh_token overwrite exactly the
token triple of the selected record, persist the document and leave
athlete_id and scopes unchanged; without configured credentials it
fails with MissingCredentialsError. -/
theorem c4_refresh_frame (env : RefreshEnv) (st : ClientState) (r : TokenTriple)
    (hep : env.endpoint = .ok r) :
    (pyTruthyStr env.client_id = true → pyTruthyStr env.client_secret = true →
      pyTruthyStr (st.config.get_profile st.profile).refresh_token = true →
      ∃ st₂, refreshToken env st = .ok (true, st₂) ∧
        st₂.saved = true ∧
        st₂.profile = st.profile ∧
        st₂.config.get_profile st.profile =
          { access_token := some r.access_token
            refresh_token := some r.refresh_token
            expires_at := some r.expires_at
            athlete_id := (st.config.get_profile st.profile).athlete_id
            scopes := (st.config.get_profile st.profile).scopes }) ∧
    ((pyTruthyStr env.client_id = false ∨ pyTruthyStr env.client_secret = false) →
      refreshToken env st = .error .missingCredentialsError) := by
  constructor
  · intro hid hsec href
    refine ⟨{ st with
        config := st.config.set_profile st.profile
          { st.config.get_profile st.profile with
              access_token := some r.access_token
              refresh_token := some r.refresh_token
              expires_at := some r.expires_at }
        saved := true }, ?_, rfl, rfl, ?_⟩
    · unfold refreshToken
      simp [hid, hsec, href, hep]
    · rw [get_set_profile]
  · intro hmiss
    unfold refreshToken
    rcases hmiss with h | h <;> simp [h]

/-- C4 witness: the frame condition at a concrete record carrying an
athlete id and scopes. -/
theorem c4_witness :
    ∃ st₂,
      refreshToken
        { client_id := some "42", client_secret := some "sec",
          endpoint := .ok { access_token := "na", refresh_token := "nr", expires_at := 99 } }
        { config := { auth := { access_token := some "oa", refresh_token := some "or",
                                expires_at := some 1, athlete_id := some 7,
                                scopes := ["read"] } } } =
        .ok (true, st₂) ∧
      st₂.saved = true ∧
      st₂.profile = none ∧
      st₂.config.get_profile none =
        { access_token := some "na", refresh_token := some "nr", expires_at := some 99,
          athlete_id := some 7, scopes := ["read"] } :=
  (c4_refresh_frame
    { client_id := some "42", client_secret := some "sec",
      endpoint := .ok { access_token := "na", refresh_token := "nr", expires_at := 99 } }
    { config := { auth := { access_token := some "oa", refresh_token := some "or",
                            expires_at := some 1, athlete_id := some 7,
                            scopes := ["read"] } } }
    { access_token := "na", refresh_token := "nr", expires_at := 99 } rfl).1
    (by decide) (by decide) (by decide)

/-- C7: handle_unauthorized attempts exactly one refresh when a refresh
token exists, returning the refreshed state for the caller to retry on
success and failing with AuthenticationError carrying the re-login hint
on refresh failure; without a refresh token it makes no attempt and
fails with the same hinted error. -/
theorem c7_unauthorized_single_refresh (env : RefreshEnv) (st : ClientState) :
    (pyTruthyStr (st.config.get_profile st.profile).refresh_token = true →
      (handleUnauthorized env st).2 = 1 ∧
      ((∃ pr, refreshToken env st = .ok pr ∧
          handleUnauthorized env st = (.ok pr.2, 1)) ∨
       (∃ e, refreshToken env st = .error e ∧
          handleUnauthorized env st =
            (.error (.authenticationError "Unauthorized. Your token may have expired."
              (some "Run strava auth login to re-authenticate.")), 1)))) ∧
    (pyTruthyStr (st.config.get_profile st.profile).refresh_token = false →
      (handleUnauthorized env st).2 = 0 ∧
      handleUnauthorized env st =
        (.error (.authenticationError "Unauthorized. Your token may have expired."
          (some "Run strava auth login to re-authenticate.")), 0)) := by
  constructor
  · intro href
    unfold handleUnauthorized
    cases hr : refreshToken env st with
    | ok pr =>
      obtain ⟨b, st₂⟩ := pr
      simp [href, hr]
    | error e =>
      simp [href, hr]
  · intro href
    unfold handleUnauthorized
    simp [href]

/-- C7 witness: with a refresh token and a failing endpoint, exactly one
attempt is made and the hinted AuthenticationError is raised. -/
theorem c7_witness :
    (handleUnauthorized { endpoint := .error "boom" }
        { config := { auth := { refresh_token := some "r" } } }).2 = 1 :=
  ((c7_unauthorized_single_refresh { endpoint := .error "boom" }
    { config := { auth := { refresh_token := some "r" } } }).1 (by decide)).1

/-- C9: after every save the directory mode is exactly owner-rwx, the
file mode is exactly owner read/write, and the file holds the serialized
lines, whatever the prior filesystem state and creation modes. -/
theorem c9_save_permissions (c : Config) (fs : FileSystem) (mkdirMode createMode : Nat) :
    (c.save fs mkdirMode createMode).dirMode = some 0o700 ∧
    (c.save fs mkdirMode createMode).fileMode = some 0o600 ∧
    (c.save fs mkdirMode createMode).fileLines = some c.saveLines := by
  unfold Config.save
  by_cases h : fs.dirMode.isSome <;> simp [h]

/-- C5: a malformed file makes Config.load fail with the TOMLDecodeError
of tomllib rather than a ConfigurationError of the CLI taxonomy, while a
missing file loads the default document without error. -/
theorem c5_malformed_and_missing :
    loadConfig {} (some ["[auth", ""]) = .error .tomlDecodeError ∧
    loadConfig {} none = .ok {} := by
  decide

/-- C8 counterexample: with STRAVA_CLIENT_ID set in the environment and
a different client id persisted in the file, Config.load returns the
file value, not the environment value. -/
theorem c8_counterexample :
    (loadConfig { strava_client_id := some "envid" }
        (some ["[client]", "id = \"fileid\"", ""])).map Config.client_id =
      .ok (some "fileid") ∧ ("fileid" : String) ≠ "envid" := by
  constructor
  · decide
  · decide

/-- C8 amended: Config.load applies environment overrides only for the
access and refresh tokens (a truthy environment value wins, client
credentials are untouched); the environment-over-file precedence for
client id and secret is implemented in get_client_credentials instead. -/
theorem c8_env_overrides (c : Config) (env : Env) :
    (c.apply_env_overrides env).auth.access_token =
      (if pyTruthyStr env.strava_access_token then env.strava_access_token
       else c.auth.access_token) ∧
    (c.apply_env_overrides env).auth.refresh_token =
      (if pyTruthyStr env.strava_refresh_token then env.strava_refresh_token
       else c.auth.refresh_token) ∧
    (c.apply_env_overrides env).client_id = c.client_id ∧
    (c.apply_env_overrides env).client_secret = c.client_secret ∧
    (c.apply_env_overrides env).auth.expires_at = c.auth.expires_at ∧
    (c.apply_env_overrides env).profiles = c.profiles ∧
    get_client_credentials env c =
      ((if pyTruthyStr env.strava_client_id then env.strava_client_id else c.client_id),
       (if pyTruthyStr env.strava_client_secret then env.strava_client_secret
        else c.client_secret)) := by
  unfold Config.apply_env_overrides get_client_credentials
  by_cases h₁ : pyTruthyStr env.strava_access_token <;>
    by_cases h₂ : pyTruthyStr env.strava_refresh_token <;>
      by_cases h₃ : pyTruthyStr env.strava_client_id <;>
        by_cases h₄ : pyTruthyStr env.strava_client_secret <;>
          simp [h₁, h₂, h₃, h₄]

/-- C10 counterexample: the empty profile name is a key of the profiles
mapping, yet clear_auth resets the default record and leaves that
profile record untouched. -/
theorem c10_counterexample :
    Config.clear_auth
      { auth := { access_token := some "dtok" },
        profiles := [("", { access_token := some "ptok" })] } (some "") =
    { auth := {}, profiles := [("", { access_token := some "ptok" })] } := by
  decide

/-- C10 amended: for a truthy profile name that is a key, clear_auth
empties exactly that profile record, keeping its key, every other
profile and the default record; for a falsy name or a name that is not a
key, it resets the default record and leaves profiles untouched. -/
theorem c10_clear_auth (c : Config) (name : Option String) :
    (pyTruthyStr name = true → (List.lookup (name.getD "") c.profiles).isSome = true →
      (c.clear_auth name).auth = c.auth ∧
      List.lookup (name.getD "") (c.clear_auth name).profiles = some {} ∧
      (∀ m, m ≠ name.getD "" →
        List.lookup m (c.clear_auth name).profiles = List.lookup m c.profiles) ∧
      (c.clear_auth name).profiles.map Prod.fst = c.profiles.map Prod.fst) ∧
    ((pyTruthyStr name = false ∨ (List.lookup (name.getD "") c.profiles).isSome = false) →
      c.clear_auth name = { c with auth := {} }) := by
  constructor
  · intro ht hk
    have hres : c.clear_auth name =
        { c with profiles := assocSet c.profiles (name.getD "") {} } := by
      unfold Config.clear_auth
      simp [ht, hk]
    rw [hres]
    refine ⟨rfl, ?_, ?_, map_fst_assocSet c.profiles (name.getD "") {}⟩
    · rw [lookup_assocSet_self]
      rcases Option.isSome_iff_exists.mp hk with ⟨w, hw⟩
      simp [hw]
    · intro m hm
      exact lookup_assocSet_other c.profiles (name.getD "") m {} hm
  · intro hmiss
    unfold Config.clear_auth
    rcases hmiss with h | h <;> simp [h]

/-- C3 counterexample: a document whose named profile carries scopes
loses them across save followed by load — Config.save writes no scopes
key in profile sections, so the reloaded profile record has empty
scopes. -/
theorem c3_counterexample :
    loadConfig {} (some (Config.saveLines
        { profiles := [("work", { scopes := ["read"] })] }))
      = .ok { profiles := [("work", {})] } ∧
    (["read"] : List String) ≠ [] := by
  constructor
  · decide
  · decide

/-- C3 amended: for every serializable document (string values printable
without quotes or backslashes, profile names distinct bare keys), save
followed by load reproduces the document up to normalization: falsy
fields collapse to absent, and every named profile keeps its tokens and
athlete id but loses its scopes, which are not persisted. -/
theorem c3_roundtrip (c : Config) (h : serializableB c = true) :
    loadConfig {} (some c.saveLines) = .ok (normalizeConfig c) := by
  show (match parseToml c.saveLines with
    | none => (.error .tomlDecodeError : Except LoadError Config)
    | some data => .ok (Config.apply_env_overrides (loadFromData data) {}))
    = .ok (normalizeConfig c)
  rw [parse_saveLines c h]
  show Except.ok (Config.apply_env_overrides (loadFromData (expectedDoc c)) {}) = _
  rw [apply_env_overrides_empty, loadFromData_expected]

/-- C3 witness: the amended round trip at a concrete fully populated
document with client credentials, default tokens, scopes and two
profiles. -/
theorem c3_witness :
    loadConfig {} (some (Config.saveLines
        { auth := { access_token := some "tok", refresh_token := some "ref",
                    expires_at := some 123, athlete_id := some 77,
                    scopes := ["read", "activity:write"] }
          defaults := { format := "csv", limit := 10 }
          profiles := [("work", { access_token := some "wtok", athlete_id := some 5,
                                  scopes := ["read"] }), ("p2", {})]
          client_id := some "cid"
          client_secret := some "sec" }))
      = .ok (normalizeConfig
        { auth := { access_token := some "tok", refresh_token := some "ref",
                    expires_at := some 123, athlete_id := some 77,
                    scopes := ["read", "activity:write"] }
          defaults := { format := "csv", limit := 10 }
          profiles := [("work", { access_token := some "wtok", athlete_id := some 5,
                                  scopes := ["read"] }), ("p2", {})]
          client_id := some "cid"
          client_secret := some "sec" }) :=
  c3_roundtrip
    { auth := { access_token := some "tok", refresh_token := some "ref",
                expires_at := some 123, athlete_id := some 77,
                scopes := ["read", "activity:write"] }
      defaults := { format := "csv", limit := 10 }
      profiles := [("work", { access_token := some "wtok", athlete_id := some 5,
                              scopes := ["read"] }), ("p2", {})]
      client_id := some "cid"
      client_secret := some "sec" }
    (by decide)

/-- C10 witness: the amended claim at a nonempty profile name that is a
key of the mapping. -/
theorem c10_witness :
    List.lookup "work"
      ((Config.clear_auth
        { auth := { access_token := some "d" },
          profiles := [("work", { access_token := some "w" })] } (some "work")).profiles) =
      some {} :=
  ((c10_clear_auth
    { auth := { access_token := some "d" },
      profiles := [("work", { access_token := some "w" })] } (some "work")).1
    (by decide) (by decide)).2.1

end StravaCLI
